import Mathlib

/-!
Verification development for the visual-cortex-mcp repository.

JavaScript strings are modelled as lists of numeric character codes
(`JSString := List Nat`); for the ASCII data handled by this program this
coincides with UTF-16 code units.  JavaScript numbers that the program
treats as coordinates, durations and exit statuses are modelled as `Int`
(every value exercised by the program is integral; `Number.isFinite` is
automatic in that model).  A JavaScript `throw` is modelled by returning
`Except.error` with the thrown error's message.
-/

namespace VC

/-- A JavaScript string: list of character codes (ASCII data throughout). -/
abbrev JSString := List Nat

/-- Encode a Lean string literal as a `JSString` (code points). -/
def jstr (s : String) : JSString := s.data.map Char.toNat

/-- JavaScript `String(n)` for an integer. -/
def jint (n : Int) : JSString := jstr (toString n)

/-- JavaScript `String(n)` for a natural number (array lengths, counts). -/
def jnat (n : Nat) : JSString := jstr (toString n)

/-- Truthiness of a possibly-absent JS string: defined and non-empty. -/
def strTruthy (o : Option JSString) : Bool :=
  match o with
  | some s => decide (s ≠ [])
  | none => false

/-- Whether an `Except` result models a non-throwing call. -/
def isOkE {ε α : Type} (r : Except ε α) : Bool :=
  match r with
  | .ok _ => true
  | .error _ => false

instance {ε α : Type} [DecidableEq ε] [DecidableEq α] :
    DecidableEq (Except ε α) := fun a b =>
  match a, b with
  | .ok x, .ok y =>
    if h : x = y then isTrue (by rw [h]) else isFalse (by simp [h])
  | .error x, .error y =>
    if h : x = y then isTrue (by rw [h]) else isFalse (by simp [h])
  | .ok _, .error _ => isFalse (by simp)
  | .error _, .ok _ => isFalse (by simp)

namespace InputValidator

/-- Character codes of the shell-metacharacter denylist
`;&|`$\<>{}[]()#*?~!` (the regex `SHELL_METACHARACTERS` of
`src/src/utils/InputValidator.js`). -/
def isShellMeta (c : Nat) : Bool :=
  decide (c = 59 ∨ c = 38 ∨ c = 124 ∨ c = 96 ∨ c = 36 ∨ c = 92 ∨ c = 60 ∨
    c = 62 ∨ c = 123 ∨ c = 125 ∨ c = 91 ∨ c = 93 ∨ c = 40 ∨ c = 41 ∨
    c = 35 ∨ c = 42 ∨ c = 63 ∨ c = 126 ∨ c = 33)

/-- Character class of the regex `SAFE_ID_PATTERN = [a-zA-Z0-9_\-.:]`. -/
def isSafeIdChar (c : Nat) : Bool :=
  decide ((97 ≤ c ∧ c ≤ 122) ∨ (65 ≤ c ∧ c ≤ 90) ∨ (48 ≤ c ∧ c ≤ 57) ∨
    c = 95 ∨ c = 45 ∨ c = 46 ∨ c = 58)

/-- `InputValidator.validateAccessibilityId` (the `typeof` guard is subsumed
by the `JSString` type). The anchored regex `^[a-zA-Z0-9_\-.:]+$` holds
exactly when every character is safe (non-emptiness was already checked). -/
def validateAccessibilityId (id : JSString) : Except JSString JSString :=
  if id.length = 0 then
    .error (jstr "Accessibility ID cannot be empty")
  else if 256 < id.length then
    .error (jstr "Accessibility ID is too long (max 256 characters)")
  else if ¬ (id.all isSafeIdChar) then
    .error (jstr "Accessibility ID contains invalid characters. Only alphanumeric, hyphens, underscores, dots, and colons are allowed.")
  else
    .ok id

/-- `InputValidator.validateAccessibilityLabel`. -/
def validateAccessibilityLabel (label : JSString) : Except JSString JSString :=
  if label.length = 0 then
    .error (jstr "Accessibility label cannot be empty")
  else if 512 < label.length then
    .error (jstr "Accessibility label is too long (max 512 characters)")
  else if label.any isShellMeta then
    .error (jstr "Accessibility label contains potentially unsafe characters")
  else
    .ok label

/-- `InputValidator.validateTypeText`. -/
def validateTypeText (text : JSString) : Except JSString JSString :=
  if text.length = 0 then
    .error (jstr "Text cannot be empty")
  else if 10000 < text.length then
    .error (jstr "Text is too long (max 10000 characters)")
  else if text.any isShellMeta then
    .error (jstr "Text contains potentially unsafe shell characters. Use only printable characters.")
  else
    .ok text

/-- `InputValidator.validateCoordinate` (numbers modelled as integers, so the
`Number.isFinite` guard cannot fire). -/
def validateCoordinate (value : Int) (nm : JSString) (lo hi : Int) :
    Except JSString Int :=
  if value < lo ∨ hi < value then
    .error (nm ++ jstr " must be between " ++ jint lo ++ jstr " and " ++ jint hi)
  else
    .ok value

/-- `InputValidator.validateDuration`. -/
def validateDuration (value : Int) : Except JSString Int :=
  if value < 0 ∨ 60 < value then
    .error (jstr "Duration must be between 0 and 60 seconds")
  else
    .ok value

/-- Hexadecimal digit, case-insensitively (`[0-9A-F]` under the regex's `i`
flag). -/
def isHexCodeCI (c : Nat) : Bool :=
  decide ((48 ≤ c ∧ c ≤ 57) ∨ (65 ≤ c ∧ c ≤ 70) ∨ (97 ≤ c ∧ c ≤ 102))

/-- Split a string at every dash (code 45), the grouping used by the UDID
regex. -/
def splitDash : JSString → List JSString
  | [] => [[]]
  | c :: cs =>
    if c = 45 then [] :: splitDash cs
    else
      match splitDash cs with
      | [] => [[c]]
      | g :: gs => (c :: g) :: gs

/-- The anchored UDID regex
`^[0-9A-F]{8}-[0-9A-F]{4}-[0-9A-F]{4}-[0-9A-F]{4}-[0-9A-F]{12}$/i`:
five dash-separated groups of case-insensitive hex digits with lengths
8, 4, 4, 4, 12. -/
def isUDIDFormat (s : JSString) : Bool :=
  match splitDash s with
  | [a, b, c, d, e] =>
    a.length = 8 && b.length = 4 && c.length = 4 && d.length = 4 &&
    e.length = 12 && a.all isHexCodeCI && b.all isHexCodeCI &&
    c.all isHexCodeCI && d.all isHexCodeCI && e.all isHexCodeCI
  | _ => false

/-- JavaScript `toUpperCase` on one ASCII character code. -/
def upperCode (c : Nat) : Nat :=
  if 97 ≤ c ∧ c ≤ 122 then c - 32 else c

/-- JavaScript `String.prototype.toUpperCase` (ASCII data). -/
def jsToUpperCase (s : JSString) : JSString := s.map upperCode

/-- `InputValidator.validateUDID`. -/
def validateUDID (udid : JSString) : Except JSString JSString :=
  if isUDIDFormat udid then .ok (jsToUpperCase udid)
  else .error (jstr "Invalid UDID format")

end InputValidator

/-- The 8-4-4-4-12 grouped hexadecimal identifier shape, stated directly from
the spec's words (independently of `splitDash`): used to check that
`validateUDID` accepts exactly these strings. -/
def UDIDSpec (s : JSString) : Prop :=
  ∃ a b c d e : JSString,
    s = a ++ [45] ++ b ++ [45] ++ c ++ [45] ++ d ++ [45] ++ e ∧
    a.length = 8 ∧ b.length = 4 ∧ c.length = 4 ∧ d.length = 4 ∧
    e.length = 12 ∧
    (∀ x ∈ a ++ b ++ c ++ d ++ e, InputValidator.isHexCodeCI x = true)

/-- Decimal digit character code (`\d` of a JS regex). -/
def isDigitCode (c : Nat) : Bool := decide (48 ≤ c ∧ c ≤ 57)

/-- One device record of the parsed `simctl list --json` payload
(`device.name`, `device.udid`, `device.state`, `device.isAvailable`,
`device.deviceTypeIdentifier`). -/
structure RawDevice where
  name : JSString
  udid : JSString
  state : JSString
  isAvailable : Bool
  deviceTypeIdentifier : Option JSString
deriving DecidableEq

/-- The device record built by `DeviceFormatter.parseDevices`. -/
structure Device where
  name : JSString
  udid : JSString
  state : JSString
  runtime : JSString
  isAvailable : Bool
  deviceType : Option JSString
deriving DecidableEq

namespace DeviceFormatter

/-- Match the regex `iOS-(\d+)-(\d+)` at the start of the string:
literal `iOS-` (codes 105, 79, 83, 45), then a maximal non-empty digit run,
a dash, and a second maximal non-empty digit run. -/
def matchIOSAt (s : JSString) : Option (JSString × JSString) :=
  match s with
  | 105 :: 79 :: 83 :: 45 :: rest =>
    let maj := rest.takeWhile isDigitCode
    if maj = [] then none
    else
      match rest.dropWhile isDigitCode with
      | 45 :: r2 =>
        let mnr := r2.takeWhile isDigitCode
        if mnr = [] then none else some (maj, mnr)
      | _ => none
  | _ => none

/-- Leftmost match of `iOS-(\d+)-(\d+)` in the string (`String.match` with an
unanchored regex scans positions left to right). -/
def findIOS : JSString → Option (JSString × JSString)
  | [] => none
  | c :: cs =>
    match matchIOSAt (c :: cs) with
    | some p => some p
    | none => findIOS cs

/-- `DeviceFormatter.extractIOSVersion`. -/
def extractIOSVersion (runtime : JSString) : JSString :=
  match findIOS runtime with
  | some (maj, mnr) => jstr "iOS " ++ maj ++ [46] ++ mnr
  | none => runtime

/-- `DeviceFormatter.parseDevices`: the runtime-keyed device lists of the
JSON payload, flattened in order, skipping unavailable devices when
`availableOnly` is set. -/
def parseDevices (devicesData : List (JSString × List RawDevice))
    (availableOnly : Bool) : List Device :=
  devicesData.foldl
    (fun acc entry =>
      acc ++
        (entry.2.filter (fun d => !availableOnly || d.isAvailable)).map
          (fun d =>
            { name := d.name, udid := d.udid, state := d.state,
              runtime := extractIOSVersion entry.1,
              isAvailable := d.isAvailable,
              deviceType := d.deviceTypeIdentifier }))
    []

/-- Whether a device's state is the string `"Booted"` (the `===` comparisons
of the sort comparator and the formatter). -/
def isBootedDev (d : Device) : Bool := decide (d.state = jstr "Booted")

/-- JavaScript `a.localeCompare(b)` modelled as code-unit lexicographic
comparison, returning a negative, zero or positive integer. -/
def strCmp : JSString → JSString → Int
  | [], [] => 0
  | [], _ :: _ => -1
  | _ :: _, [] => 1
  | a :: as, b :: bs =>
    if a < b then -1 else if b < a then 1 else strCmp as bs

/-- The comparator passed to `sort` by `DeviceFormatter.sortDevices`. -/
def cmpDev (a b : Device) : Int :=
  if isBootedDev a = true ∧ isBootedDev b = false then -1
  else if isBootedDev a = false ∧ isBootedDev b = true then 1
  else strCmp a.name b.name

/-- Non-positive comparator result: `a` may stand before `b`. -/
def devLE (a b : Device) : Bool := decide (cmpDev a b ≤ 0)

/-- Stable insertion of one device into a sorted list (helper for the model
of `Array.prototype.sort`, which is required to be stable). -/
def insertDev (a : Device) : List Device → List Device
  | [] => [a]
  | b :: bs => if devLE a b then a :: b :: bs else b :: insertDev a bs

/-- `DeviceFormatter.sortDevices` as a pure function on the copied array:
`[...devices].sort(cmp)` modelled as stable insertion sort with the
source's comparator. -/
def sortDevices (devices : List Device) : List Device :=
  devices.foldr insertDev []

/-- The whole `sortDevices` call as (return value, state of the argument
array after the call): the source sorts the spread copy `[...devices]`
in place, so the argument array is returned unchanged. -/
def sortDevicesCall (devices : List Device) : List Device × List Device :=
  (sortDevices devices, devices)

/-- `DeviceFormatter.formatDevices`: the display block for one device. -/
def deviceLine (d : Device) : JSString :=
  (if isBootedDev d then jstr "🟢" else jstr "⚪") ++ jstr " **" ++ d.name ++
    jstr "** (" ++ d.runtime ++ jstr ")" ++
    (if d.isAvailable then [] else jstr " (⚠️ Unavailable)") ++ jstr "\n" ++
    jstr "   State: " ++ (if isBootedDev d then jstr "BOOTED" else d.state) ++
    jstr "\n" ++ jstr "   UDID: " ++ d.udid ++ jstr "\n" ++ jstr "\n"

/-- `DeviceFormatter.formatDevices`. -/
def formatDevices (devices : List Device) : JSString :=
  let header := jstr "Found " ++ jnat devices.length ++ jstr " iOS Simulator" ++
    (if devices.length ≠ 1 then jstr "s" else []) ++ jstr ":\n\n"
  let body := devices.foldl (fun acc d => acc ++ deviceLine d) header
  let bootedCount := (devices.filter isBootedDev).length
  body ++
    (if 0 < bootedCount then
      jstr "\n📱 " ++ jnat bootedCount ++ jstr " simulator" ++
        (if bootedCount ≠ 1 then jstr "s are" else jstr " is") ++
        jstr " currently booted."
    else
      jstr "\n💡 No simulators are currently booted. Use \"boot\" command to start one.")

end DeviceFormatter

/-- The outcome of one `spawnSync` call: `result.error` (launch failure),
`result.status`, captured stdout and stderr. -/
structure SpawnResult where
  spawnError : Option JSString
  status : Int
  stdout : JSString
  stderr : JSString

/-- The behaviour of the operating system's `spawnSync`, as a test double:
full executable path and argument vector in, `SpawnResult` out. -/
def SpawnOracle : Type := JSString → List JSString → SpawnResult

/-- A record of one attempted `spawnSync` call: the logical command name,
the resolved full path that was spawned, and the argument vector. -/
structure Invocation where
  name : JSString
  path : JSString
  args : List JSString
deriving DecidableEq

namespace CommandExecutor

/-- The `ALLOWED_COMMANDS` table of `CommandExecutor.js`: logical names
mapped to fixed absolute paths. -/
def allowedCommands : List (JSString × JSString) :=
  [(jstr "axe", jstr "/opt/homebrew/bin/axe"),
   (jstr "xcrun", jstr "/usr/bin/xcrun")]

/-- Key lookup in `ALLOWED_COMMANDS` (`commandName in ALLOWED_COMMANDS`
followed by `ALLOWED_COMMANDS[commandName]`). -/
def lookupAllowed (nm : JSString) : Option JSString :=
  (allowedCommands.find? (fun p => decide (p.1 = nm))).map (fun p => p.2)

/-- `CommandExecutor.execute`, instrumented with the list of spawn attempts
it performs (empty when the allow-list check rejects the command before
any process is spawned).  An empty `command` makes `command[0]` the value
`undefined`, which is not in the allow-list. -/
def execute (spawn : SpawnOracle) (command : List JSString) :
    Except JSString SpawnResult × List Invocation :=
  match command.head? with
  | none => (.error (jstr "Command not allowed: undefined"), [])
  | some nm =>
    match lookupAllowed nm with
    | none => (.error (jstr "Command not allowed: " ++ nm), [])
    | some fullPath =>
      let r := spawn fullPath command.tail
      let outcome : Except JSString SpawnResult :=
        match r.spawnError with
        | some e => .error e
        | none =>
          if r.status ≠ 0 then
            .error (if r.stderr ≠ [] then r.stderr
              else jstr "Command failed with status " ++ jint r.status)
          else .ok r
      (outcome, [⟨nm, fullPath, command.tail⟩])

/-- `CommandExecutor.executeSafeCommand`, instrumented the same way;
returns the captured stdout on success. -/
def executeSafeCommand (spawn : SpawnOracle) (command : JSString)
    (args : List JSString) : Except JSString JSString × List Invocation :=
  match lookupAllowed command with
  | none => (.error (jstr "Command not allowed: " ++ command), [])
  | some fullPath =>
    let r := spawn fullPath args
    let outcome : Except JSString JSString :=
      match r.spawnError with
      | some e => .error e
      | none =>
        if r.status ≠ 0 then
          .error (if r.stderr ≠ [] then r.stderr
            else jstr "Command failed with status " ++ jint r.status)
        else .ok r.stdout
    (outcome, [⟨command, fullPath, args⟩])

end CommandExecutor

/-- The argument object of `SimulatorService.tap` (and of the tap tool):
optional coordinates, accessibility identifier and label. -/
structure TapOptions where
  x : Option Int
  y : Option Int
  id : Option JSString
  label : Option JSString
deriving DecidableEq

namespace SimulatorService

/-- Upper-case hexadecimal digit (`[0-9A-F]`, no `i` flag: the UDID-scraping
regex of `getBootedUDID` is case-sensitive). -/
def isUHexCode (c : Nat) : Bool :=
  decide ((48 ≤ c ∧ c ≤ 57) ∨ (65 ≤ c ∧ c ≤ 70))

/-- Dash character code. -/
def isDashCode (c : Nat) : Bool := decide (c = 45)

/-- The character-class sequence of the regex
`([0-9A-F]{8}-[0-9A-F]{4}-[0-9A-F]{4}-[0-9A-F]{4}-[0-9A-F]{12})`. -/
def udidShape : List (Nat → Bool) :=
  List.replicate 8 isUHexCode ++ [isDashCode] ++
  List.replicate 4 isUHexCode ++ [isDashCode] ++
  List.replicate 4 isUHexCode ++ [isDashCode] ++
  List.replicate 4 isUHexCode ++ [isDashCode] ++
  List.replicate 12 isUHexCode

/-- Match a fixed sequence of character classes at the start of the string,
returning the matched characters. -/
def matchShape : List (Nat → Bool) → JSString → Option JSString
  | [], _ => some []
  | _ :: _, [] => none
  | p :: ps, c :: cs =>
    if p c then (matchShape ps cs).map (fun t => c :: t) else none

/-- Leftmost match of the UDID pattern in the enumeration output
(`output.match(...)` with an unanchored fixed-length regex). -/
def findUDID : JSString → Option JSString
  | [] => none
  | c :: cs =>
    match matchShape udidShape (c :: cs) with
    | some m => some m
    | none => findUDID cs

/-- `SimulatorService.getBootedUDID`: probes the device list through the
gateway's `executeSafeCommand` and scrapes the first UDID; an execution
failure is swallowed to `null`.  The second component is the list of spawn
attempts the probe performed. -/
def getBootedUDID (spawn : SpawnOracle) : Option JSString × List Invocation :=
  match CommandExecutor.executeSafeCommand spawn (jstr "xcrun")
      [jstr "simctl", jstr "list", jstr "devices", jstr "booted"] with
  | (.error _, log) => (none, log)
  | (.ok out, log) => (findUDID out, log)

/-- The label branch of `SimulatorService.tap`'s argument construction
(`else if (options.label) ... else throw`). -/
def tapLabelCase (base : List JSString) (o : TapOptions) :
    Except JSString (List JSString) :=
  match o.label with
  | some lv =>
    if lv = [] then
      .error (jstr "Must provide either coordinates (x, y), accessibility id, or label")
    else
      (InputValidator.validateAccessibilityLabel lv).map
        (fun v => base ++ [jstr "--label", v])
  | none =>
    .error (jstr "Must provide either coordinates (x, y), accessibility id, or label")

/-- The identifier branch of `SimulatorService.tap`'s argument construction
(`else if (options.id) ...`, where an empty string is falsy). -/
def tapIdCase (base : List JSString) (o : TapOptions) :
    Except JSString (List JSString) :=
  match o.id with
  | some idv =>
    if idv = [] then tapLabelCase base o
    else
      (InputValidator.validateAccessibilityId idv).map
        (fun v => base ++ [jstr "--id", v])
  | none => tapLabelCase base o

/-- The argument-vector construction of `SimulatorService.tap`: coordinates
when both `x` and `y` are defined, otherwise a truthy identifier,
otherwise a truthy label, otherwise the contract error. -/
def tapArgs (base : List JSString) (o : TapOptions) :
    Except JSString (List JSString) :=
  match o.x, o.y with
  | some xv, some yv =>
    match InputValidator.validateCoordinate xv (jstr "x") 0 5000 with
    | .error e => .error e
    | .ok x =>
      match InputValidator.validateCoordinate yv (jstr "y") 0 5000 with
      | .error e => .error e
      | .ok y => .ok (base ++ [jstr "-x", jint x, jstr "-y", jint y])
  | _, _ => tapIdCase base o

/-- `SimulatorService.tap`, instrumented with its spawn attempts. -/
def tap (spawn : SpawnOracle) (options : TapOptions) :
    Except JSString JSString × List Invocation :=
  match getBootedUDID spawn with
  | (none, log) => (.error (jstr "No simulator is currently booted"), log)
  | (some udid, log) =>
    match InputValidator.validateUDID udid with
    | .error e => (.error e, log)
    | .ok validatedUdid =>
      let base := [jstr "axe", jstr "tap", jstr "--udid", validatedUdid]
      match tapArgs base options with
      | .error e => (.error e, log)
      | .ok args =>
        match CommandExecutor.execute spawn args with
        | (.error e, log2) => (.error e, log ++ log2)
        | (.ok r, log2) =>
          (.ok (if r.stdout = [] then jstr "Tap completed" else r.stdout),
           log ++ log2)

/-- The closed preset allow-list of `SimulatorService.gesture`
("this IS the validation"). -/
def validPresets : List JSString :=
  [jstr "scroll-up", jstr "scroll-down", jstr "scroll-left",
   jstr "scroll-right", jstr "swipe-from-left-edge",
   jstr "swipe-from-right-edge", jstr "swipe-from-top-edge",
   jstr "swipe-from-bottom-edge"]

/-- `SimulatorService.gesture`, instrumented with its spawn attempts.
The booted-device probe runs first, then the preset allow-list check,
then UDID re-validation, then the gesture invocation. -/
def gesture (spawn : SpawnOracle) (preset : JSString)
    (duration : Option Int) : Except JSString JSString × List Invocation :=
  match getBootedUDID spawn with
  | (none, log) => (.error (jstr "No simulator is currently booted"), log)
  | (some udid, log) =>
    if ¬ (validPresets.contains preset) then
      (.error (jstr "Invalid gesture preset. Valid options: " ++
        List.intercalate (jstr ", ") validPresets), log)
    else
      match InputValidator.validateUDID udid with
      | .error e => (.error e, log)
      | .ok validatedUdid =>
        let base := [jstr "axe", jstr "gesture", preset, jstr "--udid",
          validatedUdid]
        let argsE : Except JSString (List JSString) :=
          match duration with
          | none => .ok base
          | some d =>
            (InputValidator.validateDuration d).map
              (fun dv => base ++ [jstr "--duration", jint dv])
        match argsE with
        | .error e => (.error e, log)
        | .ok args =>
          match CommandExecutor.execute spawn args with
          | (.error e, log2) => (.error e, log ++ log2)
          | (.ok r, log2) =>
            (.ok (if r.stdout = [] then
                jstr "Gesture " ++ preset ++ jstr " completed"
              else r.stdout),
             log ++ log2)

end SimulatorService

/-- An element frame (numbers modelled as integers, on which `Math.round`
is the identity). -/
structure Frame where
  x : Int
  y : Int
  width : Int
  height : Int
deriving DecidableEq

/-- The fields of one accessibility-hierarchy node that
`DescribeUITool.extractElements` reads. -/
structure AXData where
  type : Option JSString
  role : Option JSString
  axLabel : Option JSString
  axUniqueId : Option JSString
  axValue : Option JSString
  enabled : Option Bool
  frame : Option Frame
deriving DecidableEq

/-- A node of the accessibility hierarchy: its data and its children
(the source skips entries that are not objects; the embedding ranges over
the well-formed nodes). -/
inductive AXNode where
  | mk : AXData → List AXNode → AXNode

/-- The flat element record built by `extractElements`. -/
structure UIElement where
  type : Option JSString
  label : Option JSString
  id : Option JSString
  value : Option JSString
  enabled : Option Bool
  frame : Option Frame
deriving DecidableEq

/-- JavaScript `a || b` on two possibly-absent strings (an empty string is
falsy). -/
def jsStrOr (a b : Option JSString) : Option JSString :=
  if strTruthy a then a else b

namespace DescribeUITool

/-- The element record pushed for one node (`node.type || node.role`,
`AXLabel`, `AXUniqueId`, `AXValue`, `enabled`, `frame`). -/
def toElement (d : AXData) : UIElement :=
  { type := jsStrOr d.type d.role, label := d.axLabel, id := d.axUniqueId,
    value := d.axValue, enabled := d.enabled, frame := d.frame }

/-- The inclusion test `if (element.label || element.id)`: the node carries
a truthy label or a truthy identifier. -/
def keepElement (d : AXData) : Bool :=
  strTruthy d.axLabel || strTruthy d.axUniqueId

/-- `DescribeUITool.extractElements` on a node list: for each node, push its
element when it carries a label or identifier, then recurse into its
children, then continue with the remaining nodes.  (The source wraps a
single root object into a one-element array, so the tool's call is
`extractElements [root]`.) -/
def extractElements : List AXNode → List UIElement
  | [] => []
  | .mk d cs :: ns =>
    (if keepElement d then [toElement d] else []) ++
      extractElements cs ++ extractElements ns

/-- All node data of a node list in depth-first (preorder) traversal order:
the reference order against which `extractElements` is checked. -/
def dfsData : List AXNode → List AXData
  | [] => []
  | .mk d cs :: ns => d :: (dfsData cs ++ dfsData ns)

/-- Whitespace character codes that occur in the strings this program
builds (for the model of `String.prototype.trim`). -/
def isWSCode (c : Nat) : Bool := decide (c = 32 ∨ c = 9 ∨ c = 10 ∨ c = 13)

/-- JavaScript `String.prototype.trim`. -/
def jsTrim (s : JSString) : JSString :=
  ((s.dropWhile isWSCode).reverse.dropWhile isWSCode).reverse

/-- The grouping key `el.type || "Unknown"`. -/
def typeKey (el : UIElement) : JSString :=
  match el.type with
  | some t => if t = [] then jstr "Unknown" else t
  | none => jstr "Unknown"

/-- Append an element to its key's group, creating the group at the end on
first sight (JS object string keys preserve insertion order). -/
def addToGroup : List (JSString × List UIElement) → JSString → UIElement →
    List (JSString × List UIElement)
  | [], k, el => [(k, [el])]
  | (k', items) :: rest, k, el =>
    if k' = k then (k', items ++ [el]) :: rest
    else (k', items) :: addToGroup rest k el

/-- The `grouped` object of `formatSummary`, as an association list in key
insertion order. -/
def groupByType (els : List UIElement) : List (JSString × List UIElement) :=
  els.foldl (fun g el => addToGroup g (typeKey el) el) []

/-- One item line of `formatSummary`
(`` `  • ${label} ${id} ${position} ${enabled}\n`.trim() + "\n" ``). -/
def itemLine (item : UIElement) : JSString :=
  let lbl := match item.label with
    | some l => if l = [] then jstr "(no label)" else jstr "\"" ++ l ++ jstr "\""
    | none => jstr "(no label)"
  let idp := match item.id with
    | some i => if i = [] then [] else jstr "id=\"" ++ i ++ jstr "\""
    | none => []
  let pos := match item.frame with
    | some f => jstr "at (" ++ jint f.x ++ jstr ", " ++ jint f.y ++ jstr ")"
    | none => []
  let en := if item.enabled = some false then jstr "[disabled]" else []
  jsTrim (jstr "  • " ++ lbl ++ jstr " " ++ idp ++ jstr " " ++ pos ++
    jstr " " ++ en ++ jstr "\n") ++ jstr "\n"

/-- `DescribeUITool.formatSummary`. -/
def formatSummary (elements : List UIElement) : JSString :=
  if elements.length = 0 then
    jstr "No accessible elements found on the current screen."
  else
    let header := jstr "📱 Found " ++ jnat elements.length ++
      jstr " accessible elements:\n\n"
    let body := (groupByType elements).foldl
      (fun acc g =>
        acc ++ jstr "**" ++ g.1 ++ jstr "** (" ++ jnat g.2.length ++
          jstr ")\n" ++ g.2.foldl (fun a it => a ++ itemLine it) [] ++
          jstr "\n")
      header
    body ++ jstr "\n💡 Tip: Use the 'tap' tool with --label or --id to interact with elements."

end DescribeUITool

/-- One part of a tool response's `content` array. -/
inductive ContentPart where
  | text : JSString → ContentPart
  | image : JSString → JSString → ContentPart
deriving DecidableEq

/-- The normalized response shape every tool returns across the dispatch
boundary (an absent `isError` field is modelled as `false`). -/
structure ToolResponse where
  content : List ContentPart
  isError : Bool
deriving DecidableEq

namespace BaseTool

/-- `BaseTool.createErrorResponse` (first argument: the caught error's
message; second: the context text). -/
def createErrorResponse (errMsg context : JSString) : ToolResponse :=
  { content := [.text (context ++ jstr ": " ++ errMsg)], isError := true }

/-- `BaseTool.createTextResponse`. -/
def createTextResponse (text : JSString) : ToolResponse :=
  { content := [.text text], isError := false }

/-- `BaseTool.createImageResponse`. -/
def createImageResponse (base64Image mimeType text : JSString) : ToolResponse :=
  { content := .image base64Image mimeType ::
      (if text ≠ [] then [.text text] else []),
    isError := false }

end BaseTool

/-- A test double for `SimulatorService` as the tools see it: every
operation may either return a value or throw (`Except.error`), covering
every failure kind of the service and gateway layers.  `stringifyUI`
stands for `JSON.stringify(hierarchy, null, 2)`, whose exact text is
presentation-only and cannot throw on parsed JSON data. -/
structure SimOracle where
  isSimulatorBooted : Bool
  takeScreenshotB64 : Except JSString JSString
  tap : TapOptions → Except JSString JSString
  gesture : JSString → Option Int → Except JSString JSString
  swipe : Int → Int → Int → Int → Option Int → Except JSString JSString
  typeText : JSString → Except JSString JSString
  getDevices : Except JSString (List (JSString × List RawDevice))
  describeUI : Except JSString (List AXNode)
  stringifyUI : List AXNode → JSString

/-- Argument bag of the swipe tool. -/
structure SwipeArgs where
  direction : Option JSString
  startX : Option Int
  startY : Option Int
  endX : Option Int
  endY : Option Int
  duration : Option Int
deriving DecidableEq

/-- Argument bag of the type-text tool. -/
structure TypeTextArgs where
  text : Option JSString
deriving DecidableEq

/-- Argument bag of the list-devices tool. -/
structure ListDevicesArgs where
  available_only : Option Bool
deriving DecidableEq

/-- Argument bag of the describe-UI tool. -/
structure DescribeUIArgs where
  format : Option JSString
deriving DecidableEq

namespace ScreenshotTool

/-- `ScreenshotTool.execute` (its schema declares no fields, and the body
reads none).  The `try`/`catch` wrapping the whole body is modelled by
matching on the service call's `Except` result, so the function is total:
no exception crosses the dispatch boundary. -/
def execute (svc : SimOracle) (_args : Unit) : ToolResponse :=
  if !svc.isSimulatorBooted then
    BaseTool.createErrorResponse (jstr "No iOS Simulator is currently running")
      (jstr "Error: Please launch a simulator first")
  else
    match svc.takeScreenshotB64 with
    | .error e => BaseTool.createErrorResponse e (jstr "Failed to take screenshot")
    | .ok base64Image =>
      BaseTool.createImageResponse base64Image (jstr "image/png")
        (jstr "Here is the current screen of the iOS Simulator.")

end ScreenshotTool

namespace TapTool

/-- `TapTool.execute`. -/
def execute (svc : SimOracle) (args : TapOptions) : ToolResponse :=
  if !svc.isSimulatorBooted then
    BaseTool.createErrorResponse (jstr "No iOS Simulator is currently running")
      (jstr "Please launch a simulator first")
  else if !(args.x.isSome && args.y.isSome) && !args.id.isSome &&
      !args.label.isSome then
    BaseTool.createErrorResponse (jstr "Missing required arguments")
      (jstr "Provide either coordinates (x, y), accessibility id, or label")
  else
    match svc.tap args with
    | .error e => BaseTool.createErrorResponse e (jstr "Failed to tap")
    | .ok _ =>
      let description :=
        match args.x, args.y with
        | some xv, some yv =>
          jstr "Tapped at coordinates (" ++ jint xv ++ jstr ", " ++
            jint yv ++ jstr ")"
        | _, _ =>
          match args.id with
          | some i => jstr "Tapped element with id \"" ++ i ++ jstr "\""
          | none =>
            jstr "Tapped element with label \"" ++ args.label.getD [] ++
              jstr "\""
      BaseTool.createTextResponse (jstr "✓ " ++ description)

end TapTool

namespace SwipeTool

/-- `SwipeTool.execute`. -/
def execute (svc : SimOracle) (args : SwipeArgs) : ToolResponse :=
  if !svc.isSimulatorBooted then
    BaseTool.createErrorResponse (jstr "No iOS Simulator is currently running")
      (jstr "Please launch a simulator first")
  else if strTruthy args.direction then
    match svc.gesture (args.direction.getD []) args.duration with
    | .error e => BaseTool.createErrorResponse e (jstr "Failed to swipe")
    | .ok _ =>
      BaseTool.createTextResponse (jstr "✓ Performed " ++
        args.direction.getD [] ++ jstr " gesture")
  else
    match args.startX, args.startY, args.endX, args.endY with
    | some sx, some sy, some ex, some ey =>
      match svc.swipe sx sy ex ey args.duration with
      | .error e => BaseTool.createErrorResponse e (jstr "Failed to swipe")
      | .ok _ =>
        BaseTool.createTextResponse (jstr "✓ Swiped from (" ++ jint sx ++
          jstr ", " ++ jint sy ++ jstr ") to (" ++ jint ex ++ jstr ", " ++
          jint ey ++ jstr ")")
    | _, _, _, _ =>
      BaseTool.createErrorResponse (jstr "Missing required arguments")
        (jstr "Provide either 'direction' for preset gestures, or all coordinates (startX, startY, endX, endY) for custom swipe")

end SwipeTool

namespace TypeTextTool

/-- `TypeTextTool.execute`. -/
def execute (svc : SimOracle) (args : TypeTextArgs) : ToolResponse :=
  if !svc.isSimulatorBooted then
    BaseTool.createErrorResponse (jstr "No iOS Simulator is currently running")
      (jstr "Please launch a simulator first")
  else if !strTruthy args.text then
    BaseTool.createErrorResponse (jstr "Missing required argument: text")
      (jstr "Please provide text to type")
  else
    match svc.typeText (args.text.getD []) with
    | .error e => BaseTool.createErrorResponse e (jstr "Failed to type text")
    | .ok _ =>
      BaseTool.createTextResponse (jstr "✓ Typed: \"" ++
        (if 50 < (args.text.getD []).length then
          (args.text.getD []).take 47 ++ jstr "..."
        else args.text.getD []) ++ jstr "\"")

end TypeTextTool

namespace ListDevicesTool

/-- `ListDevicesTool.execute`. -/
def execute (svc : SimOracle) (args : ListDevicesArgs) : ToolResponse :=
  let availableOnly := args.available_only.getD false
  match svc.getDevices with
  | .error e => BaseTool.createErrorResponse e (jstr "Failed to list devices")
  | .ok devicesData =>
    BaseTool.createTextResponse
      (DeviceFormatter.formatDevices
        (DeviceFormatter.sortDevices
          (DeviceFormatter.parseDevices devicesData availableOnly)))

end ListDevicesTool

namespace DescribeUITool

/-- `DescribeUITool.execute`. -/
def execute (svc : SimOracle) (args : DescribeUIArgs) : ToolResponse :=
  if !svc.isSimulatorBooted then
    BaseTool.createErrorResponse (jstr "No iOS Simulator is currently running")
      (jstr "Please launch a simulator first")
  else
    match svc.describeUI with
    | .error e => BaseTool.createErrorResponse e (jstr "Failed to describe UI")
    | .ok uiHierarchy =>
      if (match args.format with
          | some f => if f = [] then jstr "summary" else f
          | none => jstr "summary") = jstr "full" then
        BaseTool.createTextResponse (svc.stringifyUI uiHierarchy)
      else
        BaseTool.createTextResponse (formatSummary (extractElements uiHierarchy))

end DescribeUITool

/-- Every response a tool may return across the dispatch boundary: either
exactly the error shape `{content: [{type: "text", text: context ++ ": " ++
message}], isError: true}` or a success response (`isError` false). -/
def WellFormedResponse (r : ToolResponse) : Prop :=
  (∃ context errMsg, r = BaseTool.createErrorResponse errMsg context) ∨
    r.isError = false

lemma wf_err (m c : JSString) :
    WellFormedResponse (BaseTool.createErrorResponse m c) :=
  Or.inl ⟨c, m, rfl⟩

lemma wf_text (t : JSString) :
    WellFormedResponse (BaseTool.createTextResponse t) :=
  Or.inr rfl

lemma wf_image (b m t : JSString) :
    WellFormedResponse (BaseTool.createImageResponse b m t) :=
  Or.inr rfl

/-- C2: every string containing a character of the shell-metacharacter
denylist makes `validateAccessibilityLabel` and `validateTypeText` throw;
every non-empty metacharacter-free string within the length bound (512
for labels, 10000 for type-text) is accepted and returned unchanged. -/
theorem claim2_validators_metachars :
    (∀ s : JSString, s.any InputValidator.isShellMeta = true →
      isOkE (InputValidator.validateAccessibilityLabel s) = false ∧
      isOkE (InputValidator.validateTypeText s) = false) ∧
    (∀ s : JSString, s.any InputValidator.isShellMeta = false → s ≠ [] →
      s.length ≤ 512 →
      InputValidator.validateAccessibilityLabel s = .ok s) ∧
    (∀ s : JSString, s.any InputValidator.isShellMeta = false → s ≠ [] →
      s.length ≤ 10000 →
      InputValidator.validateTypeText s = .ok s) := by
  refine ⟨fun s h => ⟨?_, ?_⟩, fun s h hne hlen => ?_, fun s h hne hlen => ?_⟩
  · unfold InputValidator.validateAccessibilityLabel
    split_ifs <;> rfl
  · unfold InputValidator.validateTypeText
    split_ifs <;> rfl
  · unfold InputValidator.validateAccessibilityLabel
    split_ifs with h1 h2 h3
    · exact absurd (List.length_eq_zero.mp h1) hne
    · omega
    · rw [h] at h3; exact absurd h3 (by decide)
    · rfl
  · unfold InputValidator.validateTypeText
    split_ifs with h1 h2 h3
    · exact absurd (List.length_eq_zero.mp h1) hne
    · omega
    · rw [h] at h3; exact absurd h3 (by decide)
    · rfl

/-- Witness for C2 at the concrete inputs `"a;b"` (metacharacter `;`) and
`"hello"` (clean). -/
theorem claim2_validators_metachars_witness :
    (isOkE (InputValidator.validateAccessibilityLabel (jstr "a;b")) = false ∧
      isOkE (InputValidator.validateTypeText (jstr "a;b")) = false) ∧
    InputValidator.validateAccessibilityLabel (jstr "hello") =
      .ok (jstr "hello") ∧
    InputValidator.validateTypeText (jstr "hello") = .ok (jstr "hello") :=
  ⟨claim2_validators_metachars.1 (jstr "a;b") (by decide),
   claim2_validators_metachars.2.1 (jstr "hello") (by decide) (by decide)
     (by decide),
   claim2_validators_metachars.2.2 (jstr "hello") (by decide) (by decide)
     (by decide)⟩

lemma lookupAllowed_eq_none (nm : JSString) (h1 : nm ≠ jstr "axe")
    (h2 : nm ≠ jstr "xcrun") : CommandExecutor.lookupAllowed nm = none := by
  simp only [CommandExecutor.lookupAllowed, CommandExecutor.allowedCommands,
    Option.map_eq_none', List.find?_eq_none, List.mem_cons,
    List.not_mem_nil, or_false]
  rintro x (rfl | rfl)
  · simpa using Ne.symm h1
  · simpa using Ne.symm h2

/-- C1: a command vector whose logical name (first element) is outside the
allow-list `{"xcrun", "axe"}` makes `execute` and `executeSafeCommand`
throw `Command not allowed` with an empty spawn log (no process spawn is
attempted); an allow-listed name passes the check and exactly one spawn of
the resolved full path is attempted. -/
theorem claim1_gateway_allowlist :
    (∀ (spawn : SpawnOracle) (cmd : List JSString) (nm : JSString),
      cmd.head? = some nm → nm ≠ jstr "axe" → nm ≠ jstr "xcrun" →
      CommandExecutor.execute spawn cmd =
        (.error (jstr "Command not allowed: " ++ nm), [])) ∧
    (∀ (spawn : SpawnOracle) (nm : JSString) (args : List JSString),
      nm ≠ jstr "axe" → nm ≠ jstr "xcrun" →
      CommandExecutor.executeSafeCommand spawn nm args =
        (.error (jstr "Command not allowed: " ++ nm), [])) ∧
    (∀ (spawn : SpawnOracle) (cmd : List JSString) (nm : JSString),
      cmd.head? = some nm → (nm = jstr "axe" ∨ nm = jstr "xcrun") →
      ∃ p, CommandExecutor.lookupAllowed nm = some p ∧
        (CommandExecutor.execute spawn cmd).2 = [⟨nm, p, cmd.tail⟩]) ∧
    (∀ (spawn : SpawnOracle) (nm : JSString) (args : List JSString),
      (nm = jstr "axe" ∨ nm = jstr "xcrun") →
      ∃ p, (CommandExecutor.executeSafeCommand spawn nm args).2 =
        [⟨nm, p, args⟩]) := by
  refine ⟨fun spawn cmd nm hhd h1 h2 => ?_, fun spawn nm args h1 h2 => ?_,
    fun spawn cmd nm hhd hin => ?_, fun spawn nm args hin => ?_⟩
  · cases cmd with
    | nil => simp at hhd
    | cons a t =>
      obtain rfl : a = nm := by simpa using hhd
      simp only [CommandExecutor.execute, List.head?_cons, List.tail_cons,
        lookupAllowed_eq_none _ h1 h2]
  · simp only [CommandExecutor.executeSafeCommand,
      lookupAllowed_eq_none _ h1 h2]
  · cases cmd with
    | nil => simp at hhd
    | cons a t =>
      obtain rfl : a = nm := by simpa using hhd
      rcases hin with h | h <;> subst h
      · exact ⟨jstr "/opt/homebrew/bin/axe", by decide,
          by simp only [CommandExecutor.execute, List.head?_cons,
            List.tail_cons,
            show CommandExecutor.lookupAllowed (jstr "axe") =
              some (jstr "/opt/homebrew/bin/axe") from by decide]⟩
      · exact ⟨jstr "/usr/bin/xcrun", by decide,
          by simp only [CommandExecutor.execute, List.head?_cons,
            List.tail_cons,
            show CommandExecutor.lookupAllowed (jstr "xcrun") =
              some (jstr "/usr/bin/xcrun") from by decide]⟩
  · rcases hin with h | h <;> subst h
    · exact ⟨jstr "/opt/homebrew/bin/axe",
        by simp only [CommandExecutor.executeSafeCommand,
          show CommandExecutor.lookupAllowed (jstr "axe") =
            some (jstr "/opt/homebrew/bin/axe") from by decide]⟩
    · exact ⟨jstr "/usr/bin/xcrun",
        by simp only [CommandExecutor.executeSafeCommand,
          show CommandExecutor.lookupAllowed (jstr "xcrun") =
            some (jstr "/usr/bin/xcrun") from by decide]⟩

/-- Witness for C1: the non-allow-listed names `rm` and `bash` are rejected
with no spawn attempt; `xcrun` and `axe` reach the spawn. -/
theorem claim1_gateway_allowlist_witness :
    CommandExecutor.execute (fun _ _ => ⟨none, 0, [], []⟩)
        [jstr "rm", jstr "-rf"] =
      (.error (jstr "Command not allowed: " ++ jstr "rm"), []) ∧
    CommandExecutor.executeSafeCommand (fun _ _ => ⟨none, 0, [], []⟩)
        (jstr "bash") [] =
      (.error (jstr "Command not allowed: " ++ jstr "bash"), []) ∧
    (∃ p, CommandExecutor.lookupAllowed (jstr "xcrun") = some p ∧
      (CommandExecutor.execute (fun _ _ => ⟨none, 0, [], []⟩)
        [jstr "xcrun", jstr "simctl"]).2 = [⟨jstr "xcrun", p, [jstr "simctl"]⟩]) ∧
    (∃ p, (CommandExecutor.executeSafeCommand (fun _ _ => ⟨none, 0, [], []⟩)
      (jstr "axe") []).2 = [⟨jstr "axe", p, []⟩]) :=
  ⟨claim1_gateway_allowlist.1 _ _ _ rfl (by decide) (by decide),
   claim1_gateway_allowlist.2.1 _ _ _ (by decide) (by decide),
   claim1_gateway_allowlist.2.2.1 _ _ _ rfl (Or.inr rfl),
   claim1_gateway_allowlist.2.2.2 _ _ _ (Or.inl rfl)⟩

/-- C4: for every concrete tool of the repository and every argument bag,
`execute` is a total function into `ToolResponse` (the catch-all
`try`/`catch` converts every thrown failure), and its value is always
either the exact error shape built by `createErrorResponse` or a success
response. -/
theorem claim4_tool_error_boundary :
    ∀ svc : SimOracle,
      (∀ args, WellFormedResponse (ScreenshotTool.execute svc args)) ∧
      (∀ args, WellFormedResponse (TapTool.execute svc args)) ∧
      (∀ args, WellFormedResponse (SwipeTool.execute svc args)) ∧
      (∀ args, WellFormedResponse (TypeTextTool.execute svc args)) ∧
      (∀ args, WellFormedResponse (ListDevicesTool.execute svc args)) ∧
      (∀ args, WellFormedResponse (DescribeUITool.execute svc args)) := by
  intro svc
  refine ⟨fun args => ?_, fun args => ?_, fun args => ?_, fun args => ?_,
    fun args => ?_, fun args => ?_⟩
  · unfold ScreenshotTool.execute
    split_ifs
    · exact wf_err _ _
    · cases svc.takeScreenshotB64 with
      | error e => exact wf_err _ _
      | ok b => exact wf_image _ _ _
  · unfold TapTool.execute
    split_ifs
    · exact wf_err _ _
    · exact wf_err _ _
    · cases svc.tap args with
      | error e => exact wf_err _ _
      | ok r => exact wf_text _
  · unfold SwipeTool.execute
    split_ifs
    · exact wf_err _ _
    · cases svc.gesture (args.direction.getD []) args.duration with
      | error e => exact wf_err _ _
      | ok r => exact wf_text _
    · split
      · split
        · exact wf_err _ _
        · exact wf_text _
      · exact wf_err _ _
  · unfold TypeTextTool.execute
    split_ifs <;>
      first
        | exact wf_err _ _
        | (cases svc.typeText (args.text.getD []) with
            | error e => exact wf_err _ _
            | ok r => exact wf_text _)
  · unfold ListDevicesTool.execute
    cases svc.getDevices with
    | error e => exact wf_err _ _
    | ok d => exact wf_text _
  · unfold DescribeUITool.execute
    split_ifs <;>
      first
        | exact wf_err _ _
        | (split
           · exact wf_err _ _
           · exact wf_text _)

lemma strCmp_le_total (a b : JSString) :
    DeviceFormatter.strCmp a b ≤ 0 ∨ DeviceFormatter.strCmp b a ≤ 0 := by
  induction a generalizing b with
  | nil => cases b <;> simp [DeviceFormatter.strCmp]
  | cons x xs ih =>
    cases b with
    | nil => right; simp [DeviceFormatter.strCmp]
    | cons y ys =>
      by_cases hxy : x < y
      · left
        simp [DeviceFormatter.strCmp, hxy]
      · by_cases hyx : y < x
        · right
          simp [DeviceFormatter.strCmp, hyx]
        · have hx : ¬ y < x := hyx
          rcases ih ys with h | h
          · left; simpa [DeviceFormatter.strCmp, hxy, hyx] using h
          · right
            simpa [DeviceFormatter.strCmp, hxy, hyx] using h

lemma strCmp_le_trans {a b c : JSString}
    (h1 : DeviceFormatter.strCmp a b ≤ 0)
    (h2 : DeviceFormatter.strCmp b c ≤ 0) :
    DeviceFormatter.strCmp a c ≤ 0 := by
  induction a generalizing b c with
  | nil => cases c <;> simp [DeviceFormatter.strCmp]
  | cons x xs ih =>
    cases b with
    | nil => simp [DeviceFormatter.strCmp] at h1
    | cons y ys =>
      cases c with
      | nil => simp [DeviceFormatter.strCmp] at h2
      | cons z zs =>
        simp only [DeviceFormatter.strCmp] at h1 h2 ⊢
        split_ifs at h1 h2 ⊢ with hab hba hbc hcb hac hca
        all_goals first
          | omega
          | exact ih (b := ys) (c := zs) (by omega) (by omega)

/-- The ordering the sorted device list satisfies: no non-booted device
before a booted one, and names alphabetical among devices of equal
booted-status. -/
def devOrder (a b : Device) : Prop :=
  (DeviceFormatter.isBootedDev b = true → DeviceFormatter.isBootedDev a = true) ∧
  (DeviceFormatter.isBootedDev a = DeviceFormatter.isBootedDev b →
    DeviceFormatter.strCmp a.name b.name ≤ 0)

lemma devOrder_of_devLE {a b : Device} (h : DeviceFormatter.devLE a b = true) :
    devOrder a b := by
  have hc : DeviceFormatter.cmpDev a b ≤ 0 := of_decide_eq_true h
  unfold DeviceFormatter.cmpDev at hc
  split_ifs at hc with hmix1 hmix2
  · exact ⟨fun hb => absurd hb (by simp [hmix1.2]),
      fun he => absurd he (by simp [hmix1.1, hmix1.2])⟩
  · omega
  · have he : DeviceFormatter.isBootedDev a = DeviceFormatter.isBootedDev b := by
      cases ha : DeviceFormatter.isBootedDev a <;>
        cases hb : DeviceFormatter.isBootedDev b <;>
        simp_all
    exact ⟨fun _ => by rw [he]; assumption, fun _ => hc⟩

lemma devLE_total (a b : Device) :
    DeviceFormatter.devLE a b = true ∨ DeviceFormatter.devLE b a = true := by
  unfold DeviceFormatter.devLE DeviceFormatter.cmpDev
  rcases strCmp_le_total a.name b.name with h | h <;>
    cases ha : DeviceFormatter.isBootedDev a <;>
    cases hb : DeviceFormatter.isBootedDev b <;>
    simp_all

lemma devOrder_trans {a b c : Device} (h1 : devOrder a b) (h2 : devOrder b c) :
    devOrder a c := by
  obtain ⟨h1b, h1n⟩ := h1
  obtain ⟨h2b, h2n⟩ := h2
  refine ⟨fun hc => h1b (h2b hc), fun he => ?_⟩
  cases ht : DeviceFormatter.isBootedDev a with
  | true =>
    have hc : DeviceFormatter.isBootedDev c = true := by rw [← he, ht]
    have hb : DeviceFormatter.isBootedDev b = true := h2b hc
    exact strCmp_le_trans (h1n (by rw [ht, hb])) (h2n (by rw [hb, hc]))
  | false =>
    have hb : DeviceFormatter.isBootedDev b = false := by
      cases hbv : DeviceFormatter.isBootedDev b with
      | true => exact absurd (h1b hbv) (by rw [ht]; simp)
      | false => rfl
    have hc : DeviceFormatter.isBootedDev c = false := by rw [← he, ht]
    exact strCmp_le_trans (h1n (by rw [ht, hb])) (h2n (by rw [hb, hc]))

lemma insertDev_perm (a : Device) (l : List Device) :
    (DeviceFormatter.insertDev a l).Perm (a :: l) := by
  induction l with
  | nil => rfl
  | cons b bs ih =>
    unfold DeviceFormatter.insertDev
    split_ifs
    · rfl
    · exact (ih.cons b).trans (List.Perm.swap a b bs)

lemma mem_insertDev {y a : Device} {l : List Device}
    (h : y ∈ DeviceFormatter.insertDev a l) : y = a ∨ y ∈ l :=
  List.mem_cons.mp ((insertDev_perm a l).mem_iff.mp h)

lemma pairwise_insertDev (a : Device) {l : List Device}
    (h : List.Pairwise devOrder l) :
    List.Pairwise devOrder (DeviceFormatter.insertDev a l) := by
  induction l with
  | nil => simp [DeviceFormatter.insertDev]
  | cons b bs ih =>
    rw [List.pairwise_cons] at h
    obtain ⟨hb, hbs⟩ := h
    unfold DeviceFormatter.insertDev
    split_ifs with hle
    · refine List.Pairwise.cons ?_ (List.Pairwise.cons hb hbs)
      intro x hx
      rcases List.mem_cons.mp hx with rfl | hx
      · exact devOrder_of_devLE hle
      · exact devOrder_trans (devOrder_of_devLE hle) (hb x hx)
    · refine List.Pairwise.cons ?_ (ih hbs)
      intro x hx
      rcases mem_insertDev hx with rfl | hx
      · rcases devLE_total x b with h' | h'
        · exact absurd h' hle
        · exact devOrder_of_devLE h'
      · exact hb x hx

lemma sortDevices_perm (ds : List Device) :
    (DeviceFormatter.sortDevices ds).Perm ds := by
  induction ds with
  | nil => rfl
  | cons d ds ih =>
    exact (insertDev_perm d (DeviceFormatter.sortDevices ds)).trans (ih.cons d)

lemma sortDevices_pairwise (ds : List Device) :
    List.Pairwise devOrder (DeviceFormatter.sortDevices ds) := by
  induction ds with
  | nil => simp [DeviceFormatter.sortDevices]
  | cons d ds ih => exact pairwise_insertDev d ih

/-- C10: `sortDevices` leaves its argument array unchanged and returns a
permutation of it in which every `Booted` device stands before every
non-booted one and devices of equal booted-status are ordered
alphabetically by name. -/
theorem claim10_sortDevices_frame_order :
    ∀ ds : List Device,
      (DeviceFormatter.sortDevicesCall ds).2 = ds ∧
      (DeviceFormatter.sortDevicesCall ds).1.Perm ds ∧
      List.Pairwise devOrder (DeviceFormatter.sortDevicesCall ds).1 :=
  fun ds => ⟨rfl, sortDevices_perm ds, sortDevices_pairwise ds⟩

/-- An unlabelled container node's data (no `AXLabel`, no `AXUniqueId`). -/
def containerData : AXData :=
  { type := some (jstr "Other"), role := none, axLabel := none,
    axUniqueId := none, axValue := none, enabled := none, frame := none }

/-- A labelled leaf node's data. -/
def leafData (s : String) : AXData :=
  { type := some (jstr "Button"), role := none, axLabel := some (jstr s),
    axUniqueId := none, axValue := none, enabled := some true, frame := none }

/-- The fixture tree of the spec's scenario: three labelled leaves under two
unlabelled containers. -/
def fixtureTree : AXNode :=
  .mk containerData
    [.mk (leafData "One") [],
     .mk containerData
       [.mk (leafData "Two") [], .mk (leafData "Three") []]]

/-- C6: `extractElements` is total on every finite tree and returns exactly
the nodes carrying a (truthy) label or identifier, in depth-first
traversal order; on the fixture tree of three labelled leaves under two
unlabelled containers it returns exactly the three leaf elements in
original depth-first order. -/
theorem claim6_extractElements_dfs_filter :
    (∀ nodes : List AXNode,
      DescribeUITool.extractElements nodes =
        ((DescribeUITool.dfsData nodes).filter
          DescribeUITool.keepElement).map DescribeUITool.toElement) ∧
    DescribeUITool.extractElements [fixtureTree] =
      [DescribeUITool.toElement (leafData "One"),
       DescribeUITool.toElement (leafData "Two"),
       DescribeUITool.toElement (leafData "Three")] := by
  have main : ∀ nodes : List AXNode,
      DescribeUITool.extractElements nodes =
        ((DescribeUITool.dfsData nodes).filter
          DescribeUITool.keepElement).map DescribeUITool.toElement := by
    intro nodes
    induction nodes using DescribeUITool.extractElements.induct with
    | case1 => simp [DescribeUITool.extractElements, DescribeUITool.dfsData]
    | case2 d cs ns ih1 ih2 =>
      simp only [DescribeUITool.extractElements, DescribeUITool.dfsData,
        List.filter_cons, List.filter_append, List.map_append, ih1, ih2]
      cases hk : DescribeUITool.keepElement d <;> simp [hk]
  refine ⟨main, ?_⟩
  have hdfs : DescribeUITool.dfsData [fixtureTree] =
      [containerData, leafData "One", containerData, leafData "Two",
       leafData "Three"] := by
    simp [fixtureTree, DescribeUITool.dfsData]
  rw [main, hdfs]
  have h1 : DescribeUITool.keepElement containerData = false := by decide
  have h2 : DescribeUITool.keepElement (leafData "One") = true := by decide
  have h3 : DescribeUITool.keepElement (leafData "Two") = true := by decide
  have h4 : DescribeUITool.keepElement (leafData "Three") = true := by decide
  simp [List.filter_cons, h1, h2, h3, h4]

/-- The string contains the substring pattern `iOS-<digits>-<digits>`
(the spec's description of the runtime pattern), stated independently of
the scanner. -/
def HasIOSPattern (s : JSString) : Prop :=
  ∃ pre maj mnr post : JSString,
    s = pre ++ jstr "iOS-" ++ maj ++ [45] ++ mnr ++ post ∧
    maj ≠ [] ∧ mnr ≠ [] ∧
    (∀ x ∈ maj, isDigitCode x = true) ∧ (∀ x ∈ mnr, isDigitCode x = true)

lemma takeWhile_all {p : Nat → Bool} {l : JSString}
    (h : ∀ x ∈ l, p x = true) : l.takeWhile p = l := by
  induction l with
  | nil => rfl
  | cons c cs ih =>
    simp only [List.takeWhile_cons, h c (List.mem_cons_self c cs)]
    exact congrArg (c :: ·) (ih fun x hx => h x (List.mem_cons_of_mem c hx))

lemma dropWhile_all {p : Nat → Bool} {l : JSString}
    (h : ∀ x ∈ l, p x = true) : l.dropWhile p = [] := by
  induction l with
  | nil => rfl
  | cons c cs ih =>
    simp only [List.dropWhile_cons, h c (List.mem_cons_self c cs)]
    exact ih fun x hx => h x (List.mem_cons_of_mem c hx)

lemma matchIOSAt_some {s a b : JSString}
    (h : DeviceFormatter.matchIOSAt s = some (a, b)) :
    a ≠ [] ∧ b ≠ [] ∧ (∀ x ∈ a, isDigitCode x = true) ∧
      (∀ x ∈ b, isDigitCode x = true) ∧
      ∃ post, s = jstr "iOS-" ++ a ++ [45] ++ b ++ post := by
  match s, h with
  | 105 :: 79 :: 83 :: 45 :: rest, h =>
    simp only [DeviceFormatter.matchIOSAt] at h
    split_ifs at h with hmaj
    rcases hd : rest.dropWhile isDigitCode with _ | ⟨c, r2⟩ <;> rw [hd] at h
    · exact absurd h (by simp)
    · by_cases hc : c = 45
      · subst hc
        simp only at h
        split_ifs at h with hmnr
        rw [Option.some.injEq, Prod.mk.injEq] at h
        obtain ⟨ha, hb⟩ := h
        subst ha; subst hb
        refine ⟨hmaj, hmnr, fun x hx => List.mem_takeWhile_imp hx,
          fun x hx => List.mem_takeWhile_imp hx,
          r2.dropWhile isDigitCode, ?_⟩
        have hrest : rest = rest.takeWhile isDigitCode ++
            (45 :: (r2.takeWhile isDigitCode ++ r2.dropWhile isDigitCode)) := by
          conv_lhs =>
            rw [← List.takeWhile_append_dropWhile (p := isDigitCode) (l := rest)]
          rw [hd, List.takeWhile_append_dropWhile]
        show 105 :: 79 :: 83 :: 45 :: rest = _
        conv_lhs => rw [hrest]
        simp [jstr]
      · exact absurd h (by simp [hc])
  | [], h => exact absurd h (by simp [DeviceFormatter.matchIOSAt])

lemma findIOS_some {s a b : JSString}
    (h : DeviceFormatter.findIOS s = some (a, b)) :
    a ≠ [] ∧ b ≠ [] ∧ (∀ x ∈ a, isDigitCode x = true) ∧
      (∀ x ∈ b, isDigitCode x = true) ∧ HasIOSPattern s := by
  induction s with
  | nil => exact absurd h (by simp [DeviceFormatter.findIOS])
  | cons c cs ih =>
    rw [DeviceFormatter.findIOS] at h
    cases hm : DeviceFormatter.matchIOSAt (c :: cs) with
    | some p =>
      rw [hm] at h
      injection h with h'
      subst h'
      obtain ⟨ha, hb, hda, hdb, post, hdec⟩ := matchIOSAt_some hm
      exact ⟨ha, hb, hda, hdb, [], a, b, post, by simpa using hdec,
        ha, hb, hda, hdb⟩
    | none =>
      rw [hm] at h
      obtain ⟨ha, hb, hda, hdb, pre, maj, mnr, post, hdec, h1, h2, h3, h4⟩ :=
        ih h
      exact ⟨ha, hb, hda, hdb, c :: pre, maj, mnr, post, by simp [hdec],
        h1, h2, h3, h4⟩

lemma matchIOSAt_at_pattern {maj mnr post : JSString} (hm : maj ≠ [])
    (hn : mnr ≠ []) (hdm : ∀ x ∈ maj, isDigitCode x = true)
    (hdn : ∀ x ∈ mnr, isDigitCode x = true) :
    (DeviceFormatter.matchIOSAt
      (jstr "iOS-" ++ maj ++ [45] ++ mnr ++ post)).isSome = true := by
  have hshape : jstr "iOS-" ++ maj ++ [45] ++ mnr ++ post =
      105 :: 79 :: 83 :: 45 :: (maj ++ 45 :: (mnr ++ post)) := by
    simp [jstr]
  rw [hshape]
  have htw : (maj ++ 45 :: (mnr ++ post)).takeWhile isDigitCode = maj := by
    rw [List.takeWhile_append]
    simp [takeWhile_all hdm, List.takeWhile_cons, isDigitCode]
  have hdw : (maj ++ 45 :: (mnr ++ post)).dropWhile isDigitCode =
      45 :: (mnr ++ post) := by
    rw [List.dropWhile_append]
    simp [dropWhile_all hdm, List.dropWhile_cons, isDigitCode]
  simp only [DeviceFormatter.matchIOSAt, htw, hdw]
  have htw2 : (mnr ++ post).takeWhile isDigitCode =
      mnr ++ post.takeWhile isDigitCode := by
    rw [List.takeWhile_append]
    simp [takeWhile_all hdn]
  simp only [htw2]
  split_ifs with h1 h2
  · exact absurd h1 hm
  · rcases mnr with _ | ⟨m, ms⟩
    · exact absurd rfl hn
    · simp at h2
  · rfl

lemma findIOS_cons_isSome {c : Nat} {t : JSString}
    (h : (DeviceFormatter.findIOS t).isSome = true) :
    (DeviceFormatter.findIOS (c :: t)).isSome = true := by
  rw [DeviceFormatter.findIOS]
  cases hm : DeviceFormatter.matchIOSAt (c :: t) with
  | some p => rfl
  | none => exact h

lemma findIOS_isSome_of_pattern {s : JSString} (h : HasIOSPattern s) :
    (DeviceFormatter.findIOS s).isSome = true := by
  obtain ⟨pre, maj, mnr, post, rfl, hm, hn, hdm, hdn⟩ := h
  induction pre with
  | nil =>
    have := @matchIOSAt_at_pattern maj mnr post hm hn hdm hdn
    rw [show ([] : JSString) ++ jstr "iOS-" ++ maj ++ [45] ++ mnr ++ post =
      105 :: (79 :: 83 :: 45 :: (maj ++ 45 :: (mnr ++ post))) from by
        simp [jstr]]
    rw [DeviceFormatter.findIOS]
    cases hmm : DeviceFormatter.matchIOSAt
        (105 :: 79 :: 83 :: 45 :: (maj ++ 45 :: (mnr ++ post))) with
    | some p => rfl
    | none =>
      rw [show (105 : Nat) :: 79 :: 83 :: 45 :: (maj ++ 45 :: (mnr ++ post)) =
        jstr "iOS-" ++ maj ++ [45] ++ mnr ++ post from by simp [jstr]] at hmm
      rw [hmm] at this
      exact absurd this (by simp)
  | cons c pre ih =>
    rw [show (c :: pre) ++ jstr "iOS-" ++ maj ++ [45] ++ mnr ++ post =
      c :: (pre ++ jstr "iOS-" ++ maj ++ [45] ++ mnr ++ post) from by simp]
    exact findIOS_cons_isSome ih

lemma hasIOSPattern_length {s : JSString} (h : HasIOSPattern s) :
    7 ≤ s.length := by
  obtain ⟨pre, maj, mnr, post, rfl, hm, hn, _, _⟩ := h
  have h1 : 1 ≤ maj.length := List.length_pos.mpr hm
  have h2 : 1 ≤ mnr.length := List.length_pos.mpr hn
  simp [jstr]
  omega

/-- C8: `extractIOSVersion` maps the fixture runtime string
`com.apple.CoreSimulator.SimRuntime.iOS-17-0` to `iOS 17.0`; any string
containing the pattern `iOS-<digits>-<digits>` is mapped to
`iOS <major>.<minor>` (digit runs of the leftmost match), any string
without the pattern is returned unchanged, and a `Device` parsed with the
fixture runtime reports runtime `iOS 17.0`. -/
theorem claim8_extractIOSVersion :
    DeviceFormatter.extractIOSVersion
        (jstr "com.apple.CoreSimulator.SimRuntime.iOS-17-0") =
      jstr "iOS 17.0" ∧
    (∀ s : JSString, ¬ HasIOSPattern s →
      DeviceFormatter.extractIOSVersion s = s) ∧
    (∀ s : JSString, HasIOSPattern s →
      ∃ maj mnr : JSString, maj ≠ [] ∧ mnr ≠ [] ∧
        (∀ x ∈ maj, isDigitCode x = true) ∧
        (∀ x ∈ mnr, isDigitCode x = true) ∧
        DeviceFormatter.extractIOSVersion s =
          jstr "iOS " ++ maj ++ [46] ++ mnr) ∧
    (∀ rd : RawDevice,
      DeviceFormatter.parseDevices
          [(jstr "com.apple.CoreSimulator.SimRuntime.iOS-17-0", [rd])]
          false =
        [{ name := rd.name, udid := rd.udid, state := rd.state,
           runtime := jstr "iOS 17.0", isAvailable := rd.isAvailable,
           deviceType := rd.deviceTypeIdentifier }]) := by
  have hconc : DeviceFormatter.extractIOSVersion
      (jstr "com.apple.CoreSimulator.SimRuntime.iOS-17-0") =
      jstr "iOS 17.0" := by decide
  refine ⟨hconc, fun s hno => ?_, fun s hyes => ?_, fun rd => ?_⟩
  · unfold DeviceFormatter.extractIOSVersion
    cases hf : DeviceFormatter.findIOS s with
    | none => rfl
    | some p =>
      obtain ⟨a, b⟩ := p
      exact absurd (findIOS_some hf).2.2.2.2 hno
  · have hsome := findIOS_isSome_of_pattern hyes
    obtain ⟨⟨a, b⟩, hf⟩ := Option.isSome_iff_exists.mp hsome
    obtain ⟨ha, hb, hda, hdb, _⟩ := findIOS_some hf
    refine ⟨a, b, ha, hb, hda, hdb, ?_⟩
    unfold DeviceFormatter.extractIOSVersion
    rw [hf]
  · simp [DeviceFormatter.parseDevices, hconc]

/-- Witness for C8 at the concrete inputs: a three-character string cannot
contain the seven-character pattern, and the fixture runtime string
contains it with major run `17` and minor run `0`. -/
theorem claim8_extractIOSVersion_witness :
    DeviceFormatter.extractIOSVersion (jstr "abc") = jstr "abc" ∧
    (∃ maj mnr : JSString, maj ≠ [] ∧ mnr ≠ [] ∧
      (∀ x ∈ maj, isDigitCode x = true) ∧
      (∀ x ∈ mnr, isDigitCode x = true) ∧
      DeviceFormatter.extractIOSVersion
          (jstr "com.apple.CoreSimulator.SimRuntime.iOS-17-0") =
        jstr "iOS " ++ maj ++ [46] ++ mnr) :=
  ⟨claim8_extractIOSVersion.2.1 (jstr "abc")
      (fun h => by
        have := hasIOSPattern_length h
        revert this
        decide),
   claim8_extractIOSVersion.2.2.1
      (jstr "com.apple.CoreSimulator.SimRuntime.iOS-17-0")
      ⟨jstr "com.apple.CoreSimulator.SimRuntime.", jstr "17", jstr "0", [],
        by decide, by decide, by decide, by decide, by decide⟩⟩

lemma splitDash_ne_nil (s : JSString) : InputValidator.splitDash s ≠ [] := by
  induction s with
  | nil => simp [InputValidator.splitDash]
  | cons c cs ih =>
    unfold InputValidator.splitDash
    split_ifs
    · simp
    · cases h : InputValidator.splitDash cs with
      | nil => simp
      | cons g gs => simp

/-- Joining dash-separated groups back together (inverse of `splitDash`). -/
def joinDash : List JSString → JSString
  | [] => []
  | [g] => g
  | g :: gs => g ++ 45 :: joinDash gs

lemma joinDash_cons₂ (g : JSString) (h : List JSString) (hne : h ≠ []) :
    joinDash (g :: h) = g ++ 45 :: joinDash h := by
  cases h with
  | nil => exact absurd rfl hne
  | cons g' gs => rfl

lemma joinDash_splitDash (s : JSString) :
    joinDash (InputValidator.splitDash s) = s := by
  induction s with
  | nil => rfl
  | cons c cs ih =>
    unfold InputValidator.splitDash
    split_ifs with hc
    · subst hc
      rw [joinDash_cons₂ _ _ (splitDash_ne_nil cs), ih]
      rfl
    · cases h : InputValidator.splitDash cs with
      | nil => exact absurd h (splitDash_ne_nil cs)
      | cons g gs =>
        rw [h] at ih
        cases gs with
        | nil =>
          show joinDash [c :: g] = c :: cs
          simpa [joinDash] using congrArg (c :: ·) ih
        | cons g' gs' =>
          show joinDash ((c :: g) :: g' :: gs') = c :: cs
          rw [joinDash_cons₂ (c :: g) (g' :: gs') (by simp)]
          rw [joinDash_cons₂ g (g' :: gs') (by simp)] at ih
          simpa using congrArg (c :: ·) ih

lemma splitDash_no_dash {g : JSString} (h : ∀ x ∈ g, x ≠ 45) :
    InputValidator.splitDash g = [g] := by
  induction g with
  | nil => rfl
  | cons c cs ih =>
    unfold InputValidator.splitDash
    rw [if_neg (h c (List.mem_cons_self c cs)),
      ih fun x hx => h x (List.mem_cons_of_mem c hx)]

lemma splitDash_group {g t : JSString} (h : ∀ x ∈ g, x ≠ 45) :
    InputValidator.splitDash (g ++ 45 :: t) =
      g :: InputValidator.splitDash t := by
  induction g with
  | nil => simp [InputValidator.splitDash]
  | cons c cs ih =>
    have hc : c ≠ 45 := h c (List.mem_cons_self c cs)
    have ih' := ih fun x hx => h x (List.mem_cons_of_mem c hx)
    have hstep : InputValidator.splitDash (c :: (cs ++ 45 :: t)) =
        if c = 45 then [] :: InputValidator.splitDash (cs ++ 45 :: t)
        else
          match InputValidator.splitDash (cs ++ 45 :: t) with
          | [] => [[c]]
          | g :: gs => (c :: g) :: gs := rfl
    rw [List.cons_append, hstep, if_neg hc, ih']

lemma hexCI_ne_dash {x : Nat} (h : InputValidator.isHexCodeCI x = true) :
    x ≠ 45 := by
  intro h45
  subst h45
  exact absurd h (by decide)

lemma isUDIDFormat_iff_spec (s : JSString) :
    InputValidator.isUDIDFormat s = true ↔ UDIDSpec s := by
  constructor
  · intro h
    unfold InputValidator.isUDIDFormat at h
    split at h
    case h_2 => exact absurd h (by simp)
    case h_1 a b c d e heq =>
      simp only [Bool.and_eq_true, decide_eq_true_eq] at h
      obtain ⟨⟨⟨⟨⟨⟨⟨⟨⟨la, lb⟩, lc⟩, ld⟩, le⟩, ha⟩, hb⟩, hc⟩, hd⟩, he⟩ := h
      have hs : s = a ++ [45] ++ b ++ [45] ++ c ++ [45] ++ d ++ [45] ++ e := by
        have := joinDash_splitDash s
        rw [heq] at this
        rw [← this]
        simp [joinDash]
      refine ⟨a, b, c, d, e, hs, la, lb, lc, ld, le, fun x hx => ?_⟩
      simp only [List.mem_append] at hx
      rcases hx with ((((hx | hx) | hx) | hx) | hx)
      · exact List.all_eq_true.mp ha x hx
      · exact List.all_eq_true.mp hb x hx
      · exact List.all_eq_true.mp hc x hx
      · exact List.all_eq_true.mp hd x hx
      · exact List.all_eq_true.mp he x hx
  · rintro ⟨a, b, c, d, e, rfl, la, lb, lc, ld, le, hhex⟩
    have hmem : ∀ g : JSString, (∀ x ∈ g, InputValidator.isHexCodeCI x = true) →
        ∀ x ∈ g, x ≠ 45 :=
      fun g hg x hx => hexCI_ne_dash (hg x hx)
    have hax : ∀ x ∈ a, InputValidator.isHexCodeCI x = true :=
      fun x hx => hhex x (by simp [hx])
    have hbx : ∀ x ∈ b, InputValidator.isHexCodeCI x = true :=
      fun x hx => hhex x (by simp [hx])
    have hcx : ∀ x ∈ c, InputValidator.isHexCodeCI x = true :=
      fun x hx => hhex x (by simp [hx])
    have hdx : ∀ x ∈ d, InputValidator.isHexCodeCI x = true :=
      fun x hx => hhex x (by simp [hx])
    have hex : ∀ x ∈ e, InputValidator.isHexCodeCI x = true :=
      fun x hx => hhex x (by simp [hx])
    have hsplit : InputValidator.splitDash
        (a ++ [45] ++ b ++ [45] ++ c ++ [45] ++ d ++ [45] ++ e) =
        [a, b, c, d, e] := by
      have hshape : a ++ [45] ++ b ++ [45] ++ c ++ [45] ++ d ++ [45] ++ e =
          a ++ 45 :: (b ++ 45 :: (c ++ 45 :: (d ++ 45 :: e))) := by
        simp
      rw [hshape, splitDash_group (hmem a hax), splitDash_group (hmem b hbx),
        splitDash_group (hmem c hcx), splitDash_group (hmem d hdx),
        splitDash_no_dash (hmem e hex)]
    unfold InputValidator.isUDIDFormat
    rw [hsplit]
    simp only [Bool.and_eq_true, decide_eq_true_eq]
    exact ⟨⟨⟨⟨⟨⟨⟨⟨⟨la, lb⟩, lc⟩, ld⟩, le⟩, List.all_eq_true.mpr hax⟩,
      List.all_eq_true.mpr hbx⟩, List.all_eq_true.mpr hcx⟩,
      List.all_eq_true.mpr hdx⟩, List.all_eq_true.mpr hex⟩

lemma upperCode_hex {x : Nat} (h : InputValidator.isHexCodeCI x = true) :
    InputValidator.isHexCodeCI (InputValidator.upperCode x) = true := by
  simp only [InputValidator.isHexCodeCI, decide_eq_true_eq] at h ⊢
  unfold InputValidator.upperCode
  split_ifs <;> omega

lemma upperCode_idem (x : Nat) :
    InputValidator.upperCode (InputValidator.upperCode x) =
      InputValidator.upperCode x := by
  unfold InputValidator.upperCode
  split_ifs <;> omega

lemma udidSpec_toUpper {s : JSString} (h : UDIDSpec s) :
    UDIDSpec (InputValidator.jsToUpperCase s) := by
  obtain ⟨a, b, c, d, e, rfl, la, lb, lc, ld, le, hhex⟩ := h
  refine ⟨a.map InputValidator.upperCode, b.map InputValidator.upperCode,
    c.map InputValidator.upperCode, d.map InputValidator.upperCode,
    e.map InputValidator.upperCode, ?_, by simpa using la, by simpa using lb,
    by simpa using lc, by simpa using ld, by simpa using le, ?_⟩
  · simp [InputValidator.jsToUpperCase, InputValidator.upperCode]
  · intro x hx
    simp only [← List.map_append, List.mem_map] at hx
    obtain ⟨y, hy, rfl⟩ := hx
    exact upperCode_hex (hhex y hy)

/-- C7: `validateUDID` succeeds exactly on 8-4-4-4-12 grouped hexadecimal
strings (case-insensitively), returns the uppercase form, and is
idempotent: re-validating an accepted result succeeds and returns the
same string. -/
theorem claim7_validateUDID :
    (∀ s : JSString,
      isOkE (InputValidator.validateUDID s) = true ↔ UDIDSpec s) ∧
    (∀ s r : JSString, InputValidator.validateUDID s = .ok r →
      r = InputValidator.jsToUpperCase s) ∧
    (∀ s r : JSString, InputValidator.validateUDID s = .ok r →
      InputValidator.validateUDID r = .ok r) := by
  have hok : ∀ s r : JSString, InputValidator.validateUDID s = .ok r →
      InputValidator.isUDIDFormat s = true ∧
        r = InputValidator.jsToUpperCase s := by
    intro s r h
    unfold InputValidator.validateUDID at h
    split_ifs at h with hf
    exact ⟨hf, by injection h with h'; exact h'.symm⟩
  refine ⟨fun s => ?_, fun s r h => (hok s r h).2, fun s r h => ?_⟩
  · rw [← isUDIDFormat_iff_spec]
    unfold InputValidator.validateUDID
    split_ifs with hf <;> simp [isOkE, hf]
  · obtain ⟨hf, rfl⟩ := hok s r h
    have hspec : UDIDSpec (InputValidator.jsToUpperCase s) :=
      udidSpec_toUpper ((isUDIDFormat_iff_spec s).mp hf)
    have hfu : InputValidator.isUDIDFormat
        (InputValidator.jsToUpperCase s) = true :=
      (isUDIDFormat_iff_spec _).mpr hspec
    unfold InputValidator.validateUDID
    rw [if_pos hfu]
    have : InputValidator.jsToUpperCase (InputValidator.jsToUpperCase s) =
        InputValidator.jsToUpperCase s := by
      simp [InputValidator.jsToUpperCase, upperCode_idem]
    rw [this]

/-- Witness for C7 at the concrete mixed-case input
`abcdef01-2345-6789-ABCD-EF0123456789`. -/
theorem claim7_validateUDID_witness :
    UDIDSpec (jstr "abcdef01-2345-6789-ABCD-EF0123456789") ∧
    InputValidator.validateUDID
        (InputValidator.jsToUpperCase
          (jstr "abcdef01-2345-6789-ABCD-EF0123456789")) =
      .ok (InputValidator.jsToUpperCase
        (jstr "abcdef01-2345-6789-ABCD-EF0123456789")) :=
  ⟨(claim7_validateUDID.1 (jstr "abcdef01-2345-6789-ABCD-EF0123456789")).mp
      (by decide),
   claim7_validateUDID.2.2 (jstr "abcdef01-2345-6789-ABCD-EF0123456789")
      (InputValidator.jsToUpperCase
        (jstr "abcdef01-2345-6789-ABCD-EF0123456789")) (by decide)⟩

/-- Bool check that a string satisfies a fixed sequence of character
classes of the same length. -/
def shapeOK : List (Nat → Bool) → JSString → Bool
  | [], [] => true
  | p :: ps, c :: cs => p c && shapeOK ps cs
  | _, _ => false

lemma matchShape_some :
    ∀ {ps : List (Nat → Bool)} {cs m : JSString},
      SimulatorService.matchShape ps cs = some m → shapeOK ps m = true := by
  intro ps
  induction ps with
  | nil =>
    intro cs m h
    unfold SimulatorService.matchShape at h
    injection h with h'
    subst h'
    rfl
  | cons p ps ih =>
    intro cs m h
    cases cs with
    | nil => exact absurd h (by simp [SimulatorService.matchShape])
    | cons c cs' =>
      unfold SimulatorService.matchShape at h
      split_ifs at h with hpc
      obtain ⟨t, ht, rfl⟩ := Option.map_eq_some'.mp h
      show (p c && shapeOK ps t) = true
      rw [hpc, ih ht]
      rfl

lemma shapeOK_append {l1 l2 : List (Nat → Bool)} :
    ∀ {m : JSString}, shapeOK (l1 ++ l2) m = true →
      ∃ m1 m2, m = m1 ++ m2 ∧ shapeOK l1 m1 = true ∧ shapeOK l2 m2 = true := by
  induction l1 with
  | nil => exact fun {m} h => ⟨[], m, rfl, rfl, h⟩
  | cons p l1 ih =>
    intro m h
    cases m with
    | nil => exact absurd h (by simp [shapeOK])
    | cons c m' =>
      rw [List.cons_append] at h
      have h' : (p c && shapeOK (l1 ++ l2) m') = true := h
      rw [Bool.and_eq_true] at h'
      obtain ⟨m1, m2, rfl, h1, h2⟩ := ih h'.2
      exact ⟨c :: m1, m2, rfl, by simp [shapeOK, h'.1, h1], h2⟩

lemma shapeOK_replicate {p : Nat → Bool} :
    ∀ {n : Nat} {m : JSString}, shapeOK (List.replicate n p) m = true →
      m.length = n ∧ ∀ x ∈ m, p x = true := by
  intro n
  induction n with
  | zero =>
    intro m h
    cases m with
    | nil => simp
    | cons c m' => exact absurd h (by simp [shapeOK])
  | succ k ih =>
    intro m h
    cases m with
    | nil => exact absurd h (by simp [shapeOK, List.replicate_succ])
    | cons c m' =>
      rw [List.replicate_succ] at h
      have h' : (p c && shapeOK (List.replicate k p) m') = true := h
      rw [Bool.and_eq_true] at h'
      obtain ⟨hl, hall⟩ := ih h'.2
      refine ⟨by simp [hl], fun x hx => ?_⟩
      rcases List.mem_cons.mp hx with rfl | hx
      · exact h'.1
      · exact hall x hx

lemma map_fix {f : Nat → Nat} {m : JSString} (h : ∀ x ∈ m, f x = x) :
    m.map f = m := by
  induction m with
  | nil => rfl
  | cons c cs ih =>
    rw [List.map_cons, h c (List.mem_cons_self c cs),
      ih fun x hx => h x (List.mem_cons_of_mem c hx)]

lemma shapeOK_udidShape {m : JSString}
    (h : shapeOK SimulatorService.udidShape m = true) :
    InputValidator.isUDIDFormat m = true ∧
      InputValidator.jsToUpperCase m = m := by
  unfold SimulatorService.udidShape at h
  simp only [List.append_assoc] at h
  obtain ⟨g1, r1, rfl, hg1, h⟩ := shapeOK_append h
  obtain ⟨d1, r2, rfl, hd1, h⟩ := shapeOK_append h
  obtain ⟨g2, r3, rfl, hg2, h⟩ := shapeOK_append h
  obtain ⟨d2, r4, rfl, hd2, h⟩ := shapeOK_append h
  obtain ⟨g3, r5, rfl, hg3, h⟩ := shapeOK_append h
  obtain ⟨d3, r6, rfl, hd3, h⟩ := shapeOK_append h
  obtain ⟨g4, r7, rfl, hg4, h⟩ := shapeOK_append h
  obtain ⟨d4, g5, rfl, hd4, hg5⟩ := shapeOK_append h
  obtain ⟨l1, u1⟩ := shapeOK_replicate hg1
  obtain ⟨l2, u2⟩ := shapeOK_replicate hg2
  obtain ⟨l3, u3⟩ := shapeOK_replicate hg3
  obtain ⟨l4, u4⟩ := shapeOK_replicate hg4
  obtain ⟨l5, u5⟩ := shapeOK_replicate hg5
  have hdash : ∀ dd : JSString, shapeOK [SimulatorService.isDashCode] dd = true →
      dd = [45] := by
    intro dd hdd
    obtain ⟨ld, ud⟩ := shapeOK_replicate (p := SimulatorService.isDashCode)
      (n := 1) (by simpa using hdd)
    cases dd with
    | nil => simp at ld
    | cons c cs =>
      cases cs with
      | nil =>
        have := ud c (by simp)
        have hc : c = 45 := by
          simpa [SimulatorService.isDashCode] using this
        rw [hc]
      | cons c' cs' => simp at ld
  rw [hdash d1 hd1, hdash d2 hd2, hdash d3 hd3, hdash d4 hd4]
  have hhex : ∀ (g : JSString), (∀ x ∈ g, SimulatorService.isUHexCode x = true) →
      ∀ x ∈ g, InputValidator.isHexCodeCI x = true := by
    intro g hg x hx
    have := hg x hx
    simp only [SimulatorService.isUHexCode, decide_eq_true_eq] at this
    simp only [InputValidator.isHexCodeCI, decide_eq_true_eq]
    omega
  constructor
  · rw [isUDIDFormat_iff_spec]
    refine ⟨g1, g2, g3, g4, g5, by simp, l1, l2, l3, l4, l5, fun x hx => ?_⟩
    simp only [List.mem_append] at hx
    rcases hx with ((((hx | hx) | hx) | hx) | hx)
    · exact hhex g1 u1 x hx
    · exact hhex g2 u2 x hx
    · exact hhex g3 u3 x hx
    · exact hhex g4 u4 x hx
    · exact hhex g5 u5 x hx
  · unfold InputValidator.jsToUpperCase
    apply map_fix
    intro x hx
    have hcase : SimulatorService.isUHexCode x = true ∨ x = 45 := by
      simp only [List.mem_append, List.mem_cons, List.not_mem_nil,
        or_false] at hx
      rcases hx with hx | rfl | hx | rfl | hx | rfl | hx | rfl | hx
      · exact Or.inl (u1 x hx)
      · exact Or.inr rfl
      · exact Or.inl (u2 x hx)
      · exact Or.inr rfl
      · exact Or.inl (u3 x hx)
      · exact Or.inr rfl
      · exact Or.inl (u4 x hx)
      · exact Or.inr rfl
      · exact Or.inl (u5 x hx)
    unfold InputValidator.upperCode
    rcases hcase with hx' | rfl
    · simp only [SimulatorService.isUHexCode, decide_eq_true_eq] at hx'
      split_ifs <;> omega
    · rfl

lemma findUDID_shape {s u : JSString}
    (h : SimulatorService.findUDID s = some u) :
    InputValidator.isUDIDFormat u = true ∧
      InputValidator.jsToUpperCase u = u := by
  induction s with
  | nil => exact absurd h (by simp [SimulatorService.findUDID])
  | cons c cs ih =>
    rw [SimulatorService.findUDID] at h
    cases hm : SimulatorService.matchShape SimulatorService.udidShape
        (c :: cs) with
    | some m =>
      rw [hm] at h
      injection h with h'
      subst h'
      exact shapeOK_udidShape (matchShape_some hm)
    | none =>
      rw [hm] at h
      exact ih h

lemma getBootedUDID_log (spawn : SpawnOracle) :
    (SimulatorService.getBootedUDID spawn).2 =
      [⟨jstr "xcrun", jstr "/usr/bin/xcrun",
        [jstr "simctl", jstr "list", jstr "devices", jstr "booted"]⟩] := by
  have hlook : CommandExecutor.lookupAllowed (jstr "xcrun") =
      some (jstr "/usr/bin/xcrun") := by decide
  unfold SimulatorService.getBootedUDID
  rcases h : CommandExecutor.executeSafeCommand spawn (jstr "xcrun")
      [jstr "simctl", jstr "list", jstr "devices", jstr "booted"] with ⟨res, lg⟩
  have hlg : lg = [⟨jstr "xcrun", jstr "/usr/bin/xcrun",
      [jstr "simctl", jstr "list", jstr "devices", jstr "booted"]⟩] := by
    have h2 := congrArg Prod.snd h
    rw [show (CommandExecutor.executeSafeCommand spawn (jstr "xcrun")
        [jstr "simctl", jstr "list", jstr "devices", jstr "booted"]).2 =
        [⟨jstr "xcrun", jstr "/usr/bin/xcrun",
          [jstr "simctl", jstr "list", jstr "devices", jstr "booted"]⟩] from by
      simp only [CommandExecutor.executeSafeCommand, hlook]] at h2
    exact h2.symm
  cases res <;> simpa using hlg

lemma getBootedUDID_some {spawn : SpawnOracle} {u : JSString}
    {log : List Invocation}
    (h : SimulatorService.getBootedUDID spawn = (some u, log)) :
    InputValidator.validateUDID u = .ok u := by
  have hfind : ∃ out, SimulatorService.findUDID out = some u := by
    unfold SimulatorService.getBootedUDID at h
    rcases hc : CommandExecutor.executeSafeCommand spawn (jstr "xcrun")
        [jstr "simctl", jstr "list", jstr "devices", jstr "booted"] with
      ⟨res, lg⟩
    rw [hc] at h
    cases res with
    | error e => simp at h
    | ok out =>
      refine ⟨out, ?_⟩
      have := congrArg Prod.fst h
      simpa using this
  obtain ⟨out, hout⟩ := hfind
  obtain ⟨hfmt, hup⟩ := findUDID_shape hout
  unfold InputValidator.validateUDID
  rw [if_pos hfmt, hup]

lemma execute_axe_log (spawn : SpawnOracle) (rest : List JSString) :
    (CommandExecutor.execute spawn (jstr "axe" :: rest)).2 =
      [⟨jstr "axe", jstr "/opt/homebrew/bin/axe", rest⟩] := by
  simp only [CommandExecutor.execute, List.head?_cons, List.tail_cons,
    show CommandExecutor.lookupAllowed (jstr "axe") =
      some (jstr "/opt/homebrew/bin/axe") from by decide]

/-- A fixture UDID in canonical uppercase form. -/
def sampleUDID : JSString := jstr "ABCDEF01-2345-6789-ABCD-EF0123456789"

/-- A spawn test double for a machine with one booted simulator: the
`xcrun` device-list probe prints the fixture UDID, every other spawn
exits 0 with empty output. -/
def bootedSpawn : SpawnOracle := fun path _ =>
  if path = jstr "/usr/bin/xcrun" then
    { spawnError := none, status := 0, stdout := sampleUDID, stderr := [] }
  else
    { spawnError := none, status := 0, stdout := [], stderr := [] }

/-- Counterexample to C3 as stated: a tap request that supplies both a
coordinate pair and an accessibility identifier is not rejected — against
the booted fixture it completes successfully and spawn attempts are made. -/
theorem claim3_counterexample :
    (SimulatorService.tap bootedSpawn
      { x := some 100, y := some 200, id := some (jstr "btn"),
        label := none }).1 = .ok (jstr "Tap completed") ∧
    (SimulatorService.tap bootedSpawn
      { x := some 100, y := some 200, id := some (jstr "btn"),
        label := none }).2 ≠ [] := by
  constructor
  · decide
  · decide

/-- C3 (amended): supplying none of {coordinates, identifier, label} is
rejected as the caller contract error (after the booted-device probe,
whose spawn log the rejection carries); supplying more than one is NOT
rejected — the coordinate pair silently takes precedence and the
identifier and label are ignored. -/
theorem claim3_tap_selector_amended :
    (∀ (spawn : SpawnOracle) (u : JSString) (log : List Invocation),
      SimulatorService.getBootedUDID spawn = (some u, log) →
      SimulatorService.tap spawn
          { x := none, y := none, id := none, label := none } =
        (.error (jstr "Must provide either coordinates (x, y), accessibility id, or label"),
          log)) ∧
    (∀ (spawn : SpawnOracle) (xv yv : Int) (i l : Option JSString),
      SimulatorService.tap spawn { x := some xv, y := some yv, id := i, label := l } =
        SimulatorService.tap spawn
          { x := some xv, y := some yv, id := none, label := none }) := by
  constructor
  · intro spawn u log hg
    unfold SimulatorService.tap
    simp only [hg, getBootedUDID_some hg]
    rfl
  · intro spawn xv yv i l
    rfl

/-- Witness for C3's amended theorem at the booted fixture. -/
theorem claim3_tap_selector_amended_witness :
    SimulatorService.tap bootedSpawn
        { x := none, y := none, id := none, label := none } =
      (.error (jstr "Must provide either coordinates (x, y), accessibility id, or label"),
        [⟨jstr "xcrun", jstr "/usr/bin/xcrun",
          [jstr "simctl", jstr "list", jstr "devices", jstr "booted"]⟩]) ∧
    SimulatorService.tap bootedSpawn
        { x := some 5, y := some 6, id := some (jstr "a"),
          label := some (jstr "b") } =
      SimulatorService.tap bootedSpawn
        { x := some 5, y := some 6, id := none, label := none } :=
  ⟨claim3_tap_selector_amended.1 bootedSpawn sampleUDID
      [⟨jstr "xcrun", jstr "/usr/bin/xcrun",
        [jstr "simctl", jstr "list", jstr "devices", jstr "booted"]⟩]
      (by decide),
   claim3_tap_selector_amended.2 bootedSpawn 5 6 (some (jstr "a"))
      (some (jstr "b"))⟩

/-- C9: when both coordinates are supplied, `tap` behaves exactly as if the
identifier and label were absent (they are silently ignored) and, when
the coordinate validations pass, attempts exactly the coordinate-based
invocation; when a coordinate is missing and a truthy identifier is
supplied, the identifier takes precedence over the label. -/
theorem claim9_tap_precedence :
    (∀ (spawn : SpawnOracle) (o : TapOptions) (xv yv : Int),
      o.x = some xv → o.y = some yv →
      SimulatorService.tap spawn o =
        SimulatorService.tap spawn
          { x := o.x, y := o.y, id := none, label := none }) ∧
    (∀ (spawn : SpawnOracle) (o : TapOptions) (idv : JSString),
      (o.x = none ∨ o.y = none) → o.id = some idv → idv ≠ [] →
      SimulatorService.tap spawn o =
        SimulatorService.tap spawn
          { x := o.x, y := o.y, id := o.id, label := none }) ∧
    (∀ (spawn : SpawnOracle) (u : JSString) (log : List Invocation)
        (o : TapOptions) (xv yv x' y' : Int),
      SimulatorService.getBootedUDID spawn = (some u, log) →
      o.x = some xv → o.y = some yv →
      InputValidator.validateCoordinate xv (jstr "x") 0 5000 = .ok x' →
      InputValidator.validateCoordinate yv (jstr "y") 0 5000 = .ok y' →
      (SimulatorService.tap spawn o).2 =
        log ++ [⟨jstr "axe", jstr "/opt/homebrew/bin/axe",
          [jstr "tap", jstr "--udid", u, jstr "-x", jint x',
           jstr "-y", jint y']⟩]) := by
  refine ⟨?_, ?_, ?_⟩
  · intro spawn o xv yv hx hy
    rcases o with ⟨ox, oy, oid, olab⟩
    simp only at hx hy
    subst hx; subst hy
    rfl
  · intro spawn o idv hor hid hne
    rcases o with ⟨ox, oy, oid, olab⟩
    simp only at hid hor
    subst hid
    have hargs : ∀ base : List JSString,
        SimulatorService.tapArgs base
            ⟨ox, oy, some idv, olab⟩ =
          SimulatorService.tapArgs base ⟨ox, oy, some idv, none⟩ := by
      intro base
      have hidcase : SimulatorService.tapIdCase base
            ⟨ox, oy, some idv, olab⟩ =
          SimulatorService.tapIdCase base ⟨ox, oy, some idv, none⟩ := by
        simp only [SimulatorService.tapIdCase]
        rw [if_neg hne, if_neg hne]
      rcases hor with rfl | rfl
      · simpa [SimulatorService.tapArgs] using hidcase
      · cases ox with
        | none => simpa [SimulatorService.tapArgs] using hidcase
        | some xv => simpa [SimulatorService.tapArgs] using hidcase
    unfold SimulatorService.tap
    simp only [hargs]
  · intro spawn u log o xv yv x' y' hg hx hy hvx hvy
    rcases o with ⟨ox, oy, oid, olab⟩
    simp only at hx hy
    subst hx; subst hy
    unfold SimulatorService.tap
    simp only [hg, getBootedUDID_some hg, SimulatorService.tapArgs, hvx, hvy]
    rcases hE : CommandExecutor.execute spawn
        ([jstr "axe", jstr "tap", jstr "--udid", u] ++
          [jstr "-x", jint x', jstr "-y", jint y']) with ⟨res, log2⟩
    have hlog2 : log2 = [⟨jstr "axe", jstr "/opt/homebrew/bin/axe",
        [jstr "tap", jstr "--udid", u, jstr "-x", jint x',
         jstr "-y", jint y']⟩] := by
      have h2 := execute_axe_log spawn
        [jstr "tap", jstr "--udid", u, jstr "-x", jint x', jstr "-y", jint y']
      rw [show jstr "axe" :: [jstr "tap", jstr "--udid", u, jstr "-x",
          jint x', jstr "-y", jint y'] =
        [jstr "axe", jstr "tap", jstr "--udid", u] ++
          [jstr "-x", jint x', jstr "-y", jint y'] from by simp] at h2
      rw [hE] at h2
      exact h2
    cases res <;> simp [hlog2]

/-- Witness for C9 at concrete inputs: coordinates 10/20 with a spurious
identifier and label; identifier `btn` with a spurious label; and the
coordinate invocation against the booted fixture. -/
theorem claim9_tap_precedence_witness :
    SimulatorService.tap bootedSpawn
        { x := some 10, y := some 20, id := some (jstr "btn"),
          label := some (jstr "OK") } =
      SimulatorService.tap bootedSpawn
        { x := some 10, y := some 20, id := none, label := none } ∧
    SimulatorService.tap bootedSpawn
        { x := none, y := some 3, id := some (jstr "btn"),
          label := some (jstr "OK") } =
      SimulatorService.tap bootedSpawn
        { x := none, y := some 3, id := some (jstr "btn"), label := none } ∧
    (SimulatorService.tap bootedSpawn
        { x := some 10, y := some 20, id := some (jstr "btn"),
          label := some (jstr "OK") }).2 =
      [⟨jstr "xcrun", jstr "/usr/bin/xcrun",
        [jstr "simctl", jstr "list", jstr "devices", jstr "booted"]⟩] ++
      [⟨jstr "axe", jstr "/opt/homebrew/bin/axe",
        [jstr "tap", jstr "--udid", sampleUDID, jstr "-x", jint 10,
         jstr "-y", jint 20]⟩] :=
  ⟨claim9_tap_precedence.1 bootedSpawn
      { x := some 10, y := some 20, id := some (jstr "btn"),
        label := some (jstr "OK") } 10 20 rfl rfl,
   claim9_tap_precedence.2.1 bootedSpawn
      { x := none, y := some 3, id := some (jstr "btn"),
        label := some (jstr "OK") } (jstr "btn") (Or.inl rfl) rfl (by decide),
   claim9_tap_precedence.2.2 bootedSpawn sampleUDID
      [⟨jstr "xcrun", jstr "/usr/bin/xcrun",
        [jstr "simctl", jstr "list", jstr "devices", jstr "booted"]⟩]
      { x := some 10, y := some 20, id := some (jstr "btn"),
        label := some (jstr "OK") } 10 20 10 20 (by decide) rfl rfl
      (by decide) (by decide)⟩

/-- Counterexample to C5 as stated: `gesture("diagonal", {})` against the
booted fixture does fail validation, but a Gateway spawn (the `xcrun`
booted-device probe) has already been attempted before the check — the
spawn log is not empty. -/
theorem claim5_counterexample :
    SimulatorService.validPresets.contains (jstr "diagonal") = false ∧
    isOkE (SimulatorService.gesture bootedSpawn (jstr "diagonal") none).1 =
      false ∧
    (SimulatorService.gesture bootedSpawn (jstr "diagonal") none).2 ≠ [] := by
  refine ⟨by decide, by decide, by decide⟩

/-- C5 (amended): an invalid preset makes `gesture` throw with no gesture
(`axe`) invocation ever attempted — the only spawn preceding the check is
the booted-device probe, which goes to `xcrun`; a valid preset with no
duration option and booted UDID `u` attempts exactly the argument vector
`["axe", "gesture", preset, "--udid", u]`, with no duration flag. -/
theorem claim5_gesture_amended :
    (∀ (spawn : SpawnOracle) (preset : JSString) (d : Option Int),
      SimulatorService.validPresets.contains preset = false →
      isOkE (SimulatorService.gesture spawn preset d).1 = false ∧
      ∀ inv ∈ (SimulatorService.gesture spawn preset d).2,
        inv.name = jstr "xcrun") ∧
    (∀ (spawn : SpawnOracle) (preset u : JSString) (log : List Invocation),
      SimulatorService.validPresets.contains preset = true →
      SimulatorService.getBootedUDID spawn = (some u, log) →
      (SimulatorService.gesture spawn preset none).2 =
        log ++ [⟨jstr "axe", jstr "/opt/homebrew/bin/axe",
          [jstr "gesture", preset, jstr "--udid", u]⟩]) := by
  constructor
  · intro spawn preset d hp
    have hlog := getBootedUDID_log spawn
    unfold SimulatorService.gesture
    rcases hg : SimulatorService.getBootedUDID spawn with ⟨ub, log⟩
    rw [hg] at hlog
    simp only at hlog
    cases ub with
    | none =>
      refine ⟨rfl, fun inv hi => ?_⟩
      have hi' : inv ∈ log := hi
      rw [hlog] at hi'
      rcases List.mem_singleton.mp hi' with rfl
      rfl
    | some u =>
      rw [hp]
      refine ⟨rfl, fun inv hi => ?_⟩
      have hi' : inv ∈ log := hi
      rw [hlog] at hi'
      rcases List.mem_singleton.mp hi' with rfl
      rfl
  · intro spawn preset u log hp hg
    unfold SimulatorService.gesture
    simp only [hg]
    rw [if_neg (by rw [hp]; simp)]
    simp only [getBootedUDID_some hg]
    rcases hE : CommandExecutor.execute spawn
        [jstr "axe", jstr "gesture", preset, jstr "--udid", u] with
      ⟨res, log2⟩
    have hlog2 : log2 = [⟨jstr "axe", jstr "/opt/homebrew/bin/axe",
        [jstr "gesture", preset, jstr "--udid", u]⟩] := by
      have h2 := execute_axe_log spawn [jstr "gesture", preset,
        jstr "--udid", u]
      rw [show jstr "axe" :: [jstr "gesture", preset, jstr "--udid", u] =
        [jstr "axe", jstr "gesture", preset, jstr "--udid", u] from rfl] at h2
      rw [hE] at h2
      exact h2
    cases res <;> simp [hlog2]

/-- Witness for C5's amended theorem: `diagonal` is rejected with only the
`xcrun` probe spawned; `scroll-up` against the booted fixture attempts
exactly the duration-free gesture vector. -/
theorem claim5_gesture_amended_witness :
    (isOkE (SimulatorService.gesture bootedSpawn (jstr "diagonal") none).1 =
        false ∧
      ∀ inv ∈ (SimulatorService.gesture bootedSpawn (jstr "diagonal") none).2,
        inv.name = jstr "xcrun") ∧
    (SimulatorService.gesture bootedSpawn (jstr "scroll-up") none).2 =
      [⟨jstr "xcrun", jstr "/usr/bin/xcrun",
        [jstr "simctl", jstr "list", jstr "devices", jstr "booted"]⟩] ++
      [⟨jstr "axe", jstr "/opt/homebrew/bin/axe",
        [jstr "gesture", jstr "scroll-up", jstr "--udid", sampleUDID]⟩] :=
  ⟨claim5_gesture_amended.1 bootedSpawn (jstr "diagonal") none (by decide),
   claim5_gesture_amended.2 bootedSpawn (jstr "scroll-up") sampleUDID
      [⟨jstr "xcrun", jstr "/usr/bin/xcrun",
        [jstr "simctl", jstr "list", jstr "devices", jstr "booted"]⟩]
      (by decide) (by decide)⟩

end VC
